import Mathlib

/-!
# learn-casbin-go: the HTTP handlers of `main.go` over a policy engine

`main.go` registers nine handlers that drive one shared `casbin` enforcer.
The handlers are embedded here as functions over an explicit engine state;
the enforcer's methods, which live in the imported library, are the fields
of `Enforcer`.  Every method call is appended to a log, so that statements
about which calls a handler makes, and in which order, are statements about
a value.
-/

namespace LearnCasbin

/-- A policy row as the engine exchanges it (`[]string`). -/
abbrev Rule := List String

/-- The body of `POST /enforce`. -/
structure requestEnforce where
  Subject : String
  Domain : String
  Object : String
  Action : String
deriving DecidableEq, Repr

/-- The body of `POST` and `PUT /members/:domain`. -/
structure requestRole where
  Subject : String
  Role : String
deriving DecidableEq, Repr

/-- The body of `DELETE /members/:domain` (the anonymous struct of that handler). -/
structure requestSubject where
  Subject : String
deriving DecidableEq, Repr

/-- The value stored under the single key of a `fiber.Map` the handlers send. -/
inductive Payload where
  | text (s : String)
  | strings (l : List String)
  | rows (l : List Rule)
deriving DecidableEq, Repr

/-- What a handler sends: the status and the one-entry JSON map. -/
structure Response where
  status : Nat
  key : String
  value : Payload
deriving DecidableEq, Repr

/-- The methods of the shared enforcer that `main.go` calls, over an engine
state `σ`.  A Go `error` is `Option String` (`none` is `nil`).  The five
methods that change the engine (reload, persist and the three grouping-rule
mutations) return the new state; the queries read it and leave it as it is. -/
structure Enforcer (σ : Type) where
  LoadPolicy : σ → Option String × σ
  SavePolicy : σ → Option String × σ
  AddRoleForUserInDomain : String → String → String → σ → (Bool × Option String) × σ
  UpdateGroupingPolicies : List Rule → List Rule → σ → (Bool × Option String) × σ
  RemoveGroupingPolicies : List Rule → σ → (Bool × Option String) × σ
  EnforceEx : String → String → String → String → σ → Bool × List String × Option String
  GetAllDomains : σ → List String × Option String
  GetAllRoles : σ → List String × Option String
  GetFilteredGroupingPolicy : Nat → List String → σ → List Rule × Option String
  GetRolesForUserInDomain : String → String → σ → List String
  GetPolicy : σ → List Rule × Option String
  GetGroupingPolicy : σ → List Rule × Option String

/-- One call on the enforcer, with its arguments. -/
inductive Call where
  | LoadPolicy
  | SavePolicy
  | AddRoleForUserInDomain (user role domain : String)
  | UpdateGroupingPolicies (oldRules newRules : List Rule)
  | RemoveGroupingPolicies (rules : List Rule)
  | EnforceEx (sub dom obj act : String)
  | GetAllDomains
  | GetAllRoles
  | GetFilteredGroupingPolicy (fieldIndex : Nat) (fieldValues : List String)
  | GetRolesForUserInDomain (user domain : String)
  | GetPolicy
  | GetGroupingPolicy
deriving DecidableEq, Repr

/-- The engine state together with the log of calls made so far, oldest first. -/
structure World (σ : Type) where
  state : σ
  calls : List Call

/-- Record a call that leaves the engine state as it is. -/
def World.note {σ : Type} (w : World σ) (c : Call) : World σ :=
  ⟨w.state, w.calls ++ [c]⟩

/-- Record a call that moves the engine to `s`. -/
def World.move {σ : Type} (w : World σ) (c : Call) (s : σ) : World σ :=
  ⟨s, w.calls ++ [c]⟩

section Logged
variable {σ : Type} (E : Enforcer σ)

/-- Logged `enforcer.LoadPolicy()`. -/
def loadPolicy (w : World σ) : Option String × World σ :=
  ((E.LoadPolicy w.state).1, w.move Call.LoadPolicy (E.LoadPolicy w.state).2)

/-- Logged `enforcer.SavePolicy()`. -/
def savePolicy (w : World σ) : Option String × World σ :=
  ((E.SavePolicy w.state).1, w.move Call.SavePolicy (E.SavePolicy w.state).2)

/-- Logged `enforcer.AddRoleForUserInDomain(user, role, domain)`. -/
def addRoleForUserInDomain (user role domain : String) (w : World σ) :
    (Bool × Option String) × World σ :=
  ((E.AddRoleForUserInDomain user role domain w.state).1,
    w.move (Call.AddRoleForUserInDomain user role domain)
      (E.AddRoleForUserInDomain user role domain w.state).2)

/-- Logged `enforcer.UpdateGroupingPolicies(oldRules, newRules)`. -/
def updateGroupingPolicies (oldRules newRules : List Rule) (w : World σ) :
    (Bool × Option String) × World σ :=
  ((E.UpdateGroupingPolicies oldRules newRules w.state).1,
    w.move (Call.UpdateGroupingPolicies oldRules newRules)
      (E.UpdateGroupingPolicies oldRules newRules w.state).2)

/-- Logged `enforcer.RemoveGroupingPolicies(rules)`. -/
def removeGroupingPolicies (rules : List Rule) (w : World σ) :
    (Bool × Option String) × World σ :=
  ((E.RemoveGroupingPolicies rules w.state).1,
    w.move (Call.RemoveGroupingPolicies rules) (E.RemoveGroupingPolicies rules w.state).2)

/-- Logged `enforcer.EnforceEx(sub, dom, obj, act)`. -/
def enforceEx (sub dom obj act : String) (w : World σ) :
    (Bool × List String × Option String) × World σ :=
  (E.EnforceEx sub dom obj act w.state, w.note (Call.EnforceEx sub dom obj act))

/-- Logged `enforcer.GetRolesForUserInDomain(user, domain)`. -/
def getRolesForUserInDomain (user domain : String) (w : World σ) : List String × World σ :=
  (E.GetRolesForUserInDomain user domain w.state,
    w.note (Call.GetRolesForUserInDomain user domain))

end Logged

/-- The response `c.Status(code).JSON(fiber.Map{"error": msg})`. -/
def errorJSON (code : Nat) (msg : String) : Response :=
  ⟨code, "error", Payload.text msg⟩

/-- The response `c.Status(code).JSON(fiber.Map{"message": msg})` with a string. -/
def messageJSON (code : Nat) (msg : String) : Response :=
  ⟨code, "message", Payload.text msg⟩

/-- The `oldPolicy` loop of the `PUT` and `DELETE` handlers: one row
`{subject, role, domain}` appended per role, in the order of `roles`. -/
def oldPolicyOf (subject domain : String) (roles : List String) : List Rule :=
  roles.foldl (fun oldPolicy role => oldPolicy ++ [[subject, role, domain]]) []

section Handlers
variable {σ : Type} (E : Enforcer σ)

/-- The handler of `POST /enforce`; `body` is what `c.BodyParser(req)` gives:
the parse error or the parsed request. -/
def postEnforce (body : Except String requestEnforce) (w : World σ) : Response × World σ :=
  match body with
  | .error err => (errorJSON 400 err, w)
  | .ok req =>
    match loadPolicy E w with
    | (some err, w1) => (errorJSON 500 err, w1)
    | (none, w1) =>
      match enforceEx E req.Subject req.Domain req.Object req.Action w1 with
      | ((_, _, some err), w2) => (errorJSON 500 err, w2)
      | ((ok, reason, none), w2) =>
        if !ok then (messageJSON 403 "forbidden", w2)
        else (⟨200, "message", Payload.strings reason⟩, w2)

/-- The handler of `POST /members/:domain`. -/
def memberPost (domain : String) (body : Except String requestRole) (w : World σ) :
    Response × World σ :=
  match body with
  | .error err => (errorJSON 400 err, w)
  | .ok req =>
    if req.Role ≠ "owner" ∧ req.Role ≠ "moderator" then
      (errorJSON 400 "role must be owner or moderator", w)
    else
      match loadPolicy E w with
      | (some err, w1) => (errorJSON 500 err, w1)
      | (none, w1) =>
        match addRoleForUserInDomain E req.Subject req.Role domain w1 with
        | ((_, some err), w2) => (errorJSON 500 err, w2)
        | ((ok, none), w2) =>
          match savePolicy E w2 with
          | (some err, w3) => (errorJSON 500 err, w3)
          | (none, w3) =>
            if !ok then (errorJSON 400 "failed to add role", w3)
            else (messageJSON 200 "role added", w3)

/-- The handler of `PUT /members/:domain`. -/
def memberPut (domain : String) (body : Except String requestRole) (w : World σ) :
    Response × World σ :=
  match body with
  | .error err => (errorJSON 400 err, w)
  | .ok req =>
    if req.Role ≠ "owner" ∧ req.Role ≠ "moderator" then
      (errorJSON 400 "role must be owner or moderator", w)
    else
      match loadPolicy E w with
      | (some err, w1) => (errorJSON 500 err, w1)
      | (none, w1) =>
        match getRolesForUserInDomain E req.Subject domain w1 with
        | (roles, w2) =>
          if roles.length = 0 then (errorJSON 400 "user does not exist", w2)
          else
            match updateGroupingPolicies E (oldPolicyOf req.Subject domain roles)
                ([] ++ [[req.Subject, req.Role, domain]]) w2 with
            | ((_, some err), w3) => (errorJSON 500 err, w3)
            | ((ok, none), w3) =>
              match savePolicy E w3 with
              | (some err, w4) => (errorJSON 500 err, w4)
              | (none, w4) =>
                if !ok then (errorJSON 400 "failed to delete role", w4)
                else (messageJSON 200 "role updated", w4)

/-- The handler of `DELETE /members/:domain`. -/
def memberDelete (domain : String) (body : Except String requestSubject) (w : World σ) :
    Response × World σ :=
  match body with
  | .error err => (errorJSON 400 err, w)
  | .ok req =>
    match loadPolicy E w with
    | (some err, w1) => (errorJSON 500 err, w1)
    | (none, w1) =>
      match getRolesForUserInDomain E req.Subject domain w1 with
      | (roles, w2) =>
        if roles.length = 0 then (errorJSON 400 "user does not exist", w2)
        else
          match removeGroupingPolicies E (oldPolicyOf req.Subject domain roles) w2 with
          | ((_, some err), w3) => (errorJSON 500 err, w3)
          | ((ok, none), w3) =>
            match savePolicy E w3 with
            | (some err, w4) => (errorJSON 500 err, w4)
            | (none, w4) =>
              if !ok then (errorJSON 400 "failed to delete role", w4)
              else (messageJSON 200 "role deleted", w4)

end Handlers

/-- Two `POST /members/:domain` requests with the same body, one after the
other on the same enforcer: the outcome of the first and of the second. -/
def postTwice {σ : Type} (E : Enforcer σ) (domain : String) (req : requestRole) (st : σ) :
    (Response × World σ) × (Response × World σ) :=
  (memberPost E domain (.ok req) ⟨st, []⟩,
    memberPost E domain (.ok req) ⟨(memberPost E domain (.ok req) ⟨st, []⟩).2.state, []⟩)

/-- A `POST /members/:domain` request followed by a `PUT` on the same
enforcer: the outcome of the first and of the second. -/
def postThenPut {σ : Type} (E : Enforcer σ) (domain : String) (added changed : requestRole)
    (st : σ) : (Response × World σ) × (Response × World σ) :=
  (memberPost E domain (.ok added) ⟨st, []⟩,
    memberPut E domain (.ok changed) ⟨(memberPost E domain (.ok added) ⟨st, []⟩).2.state, []⟩)

/-- Modelled from the spec: the Rule Store of §4.1, whose implementation is
the imported library.  It holds the in-memory snapshot and the persisted copy
of the two relations, each a sequence of rows of strings (§6), and the
condition of the backing medium: a pending read or write failure is the
`StoreError` the next `reload()` or `persist()` reports. -/
structure RuleStore where
  permissionRules : List Rule
  groupingRules : List Rule
  persistedPermissionRules : List Rule
  persistedGroupingRules : List Rule
  readFailure : Option String
  writeFailure : Option String
deriving DecidableEq, Repr

/-- Modelled from the spec: rows entering a relation, which holds a tuple or
does not (§4.4: a role-set per subject and domain; `add` appends only if no
equivalent tuple exists): each row is appended unless an equivalent one is
already there. -/
def insertRules : List Rule → List Rule → List Rule
  | g, [] => g
  | g, r :: rest => insertRules (if r ∈ g then g else g ++ [r]) rest

/-- Modelled from the spec: the rows `reload()` of §4.1 puts in memory for the
persisted grouping relation: its rows in their order, a row that is repeated
taken once, where it first occurs (for permission rules §3 enforces no
uniqueness; they are loaded as they are). -/
def loadRows (rows : List Rule) : List Rule :=
  insertRules [] rows

/-- Modelled from the spec: the store after a successful `reload()` of §4.1:
both in-memory relations replaced wholesale by what is persisted. -/
def RuleStore.loaded (s : RuleStore) : RuleStore :=
  { s with permissionRules := s.persistedPermissionRules,
           groupingRules := loadRows s.persistedGroupingRules }

/-- Modelled from the spec: `reload()` of §4.1 (the library's `LoadPolicy`):
re-reads both relations from persistent storage into memory, replacing the
prior snapshot wholesale; on a failure of the medium it reports the
`StoreError` and exposes no partial snapshot. -/
def RuleStore.reload (s : RuleStore) : Option String × RuleStore :=
  match s.readFailure with
  | some e => (some e, s)
  | none => (none, s.loaded)

/-- Modelled from the spec: the store after a successful `persist()` of
§4.1: the persisted relations replaced wholesale by the in-memory ones. -/
def RuleStore.saved (s : RuleStore) : RuleStore :=
  { s with persistedPermissionRules := s.permissionRules,
           persistedGroupingRules := s.groupingRules }

/-- Modelled from the spec: `persist()` of §4.1 (the library's `SavePolicy`):
writes the in-memory snapshot back to persistent storage, replacing its prior
contents wholesale, or reports the `StoreError`. -/
def RuleStore.persist (s : RuleStore) : Option String × RuleStore :=
  match s.writeFailure with
  | some e => (some e, s)
  | none => (none, s.saved)

/-- The store with its in-memory grouping relation set to `g`. -/
def RuleStore.withGrouping (s : RuleStore) (g : List Rule) : RuleStore :=
  { s with groupingRules := g }

/-- Modelled from the spec: the grouping edges of §4.2 that leave the node
`x` within `domain`: the role of every GroupingRule `(x, role, domain)`. -/
def rolesHeldBy (g : List Rule) (domain x : String) : List String :=
  g.filterMap (fun rule =>
    match rule with
    | [a, b, d] => if a = x ∧ d = domain then some b else none
    | _ => none)

/-- Modelled from the spec: the traversal of §4.2: breadth-first over the
grouping edges of one domain, `queue` the nodes still to expand, `seen` the
distinct nodes reached so far, never entering a node twice.  Each step
expands one node, and at most one node per grouping rule, plus the start, is
ever queued. -/
def reach : Nat → List Rule → String → List String → List String → List String
  | 0, _, _, _, seen => seen
  | _ + 1, _, _, [], seen => seen
  | n + 1, g, domain, x :: queue, seen =>
    reach n g domain
      (queue ++ ((rolesHeldBy g domain x).filter (fun r => r ∉ seen)).dedup)
      (seen ++ ((rolesHeldBy g domain x).filter (fun r => r ∉ seen)).dedup)

/-- Modelled from the spec: the closure of §4.2 that enforcement uses for the
effective subjects (§4.3 step 2): every role reachable from `subject` within
`domain` through GroupingRule edges, role-of-role edges included. -/
def impliedRoles (g : List Rule) (subject domain : String) : List String :=
  reach (g.length + 1) g domain [subject] []

/-- Modelled from the spec: the role query of the `PUT` and `DELETE` handlers
(the library's `GetRolesForUserInDomain`), the `rolesOf(subject, domain)` of
§4.4, P5 and P7: the distinct roles the subject is assigned in the domain,
one per GroupingRule `(subject, role, domain)`; empty when the subject has no
assignment.  Roles held only through another role are in `impliedRoles`. -/
def rolesOf (g : List Rule) (subject domain : String) : List String :=
  (rolesHeldBy g domain subject).dedup

/-- Modelled from the spec: `add` of §4.4 at the store (the library's
`AddRoleForUserInDomain`): appends the GroupingRule if an equivalent one does
not already exist; `true` if a tuple was added, `false` if it existed. -/
def RuleStore.add (subject role domain : String) (s : RuleStore) :
    (Bool × Option String) × RuleStore :=
  if [subject, role, domain] ∈ s.groupingRules then ((false, none), s)
  else ((true, none), s.withGrouping (s.groupingRules ++ [[subject, role, domain]]))

/-- Modelled from the spec: the store-level update behind `replace` of §4.4
(the library's `UpdateGroupingPolicies`): removes every listed old tuple and
inserts the new ones in one step, leaving the other rows in their order (§6).
When that leaves the same tuples as before, the update is a no-op: the store
is kept and `false` is reported, which is not an error. -/
def RuleStore.update (oldRules newRules : List Rule) (s : RuleStore) :
    (Bool × Option String) × RuleStore :=
  if (insertRules (s.groupingRules.filter (fun r => r ∉ oldRules)) newRules ⊆ s.groupingRules)
      ∧ (s.groupingRules ⊆ insertRules (s.groupingRules.filter (fun r => r ∉ oldRules)) newRules)
  then ((false, none), s)
  else ((true, none),
    s.withGrouping (insertRules (s.groupingRules.filter (fun r => r ∉ oldRules)) newRules))

/-- Modelled from the spec: the store-level removal behind `removeAll` of
§4.4 (the library's `RemoveGroupingPolicies`): removes every listed tuple;
`false` if nothing was removed, `true` otherwise. -/
def RuleStore.remove (rules : List Rule) (s : RuleStore) :
    (Bool × Option String) × RuleStore :=
  if s.groupingRules.filter (fun r => r ∉ rules) = s.groupingRules then ((false, none), s)
  else ((true, none), s.withGrouping (s.groupingRules.filter (fun r => r ∉ rules)))

/-- Modelled from the spec: step 3 of §4.3: a PermissionRule
`(subjectOrRole, domain, object, action, effect)` matches when its subject is
one of the effective subjects and domain, object and action are equal to the
request's. -/
def ruleMatches (effective : List String) (dom obj act : String) (rule : Rule) : Bool :=
  match rule with
  | [s, d, o, a, _] => decide (s ∈ effective ∧ d = dom ∧ o = obj ∧ a = act)
  | _ => false

/-- Modelled from the spec: the effect field of a PermissionRule row. -/
def effectIs (effect : String) (rule : Rule) : Bool :=
  match rule with
  | [_, _, _, _, e] => decide (e = effect)
  | _ => false

/-- Modelled from the spec: `enforce` of §4.3 on the in-memory snapshot (the
library's `EnforceEx`): the effective subjects are the subject and every role
it holds in the domain, directly or through other roles; a matching deny rule
decides deny, otherwise a matching allow rule decides allow, otherwise deny
by default.  The explanation is the deciding rule, or the empty row when none
matched. -/
def RuleStore.enforce (sub dom obj act : String) (s : RuleStore) :
    Bool × List String × Option String :=
  match (s.permissionRules.filter
      (ruleMatches (sub :: impliedRoles s.groupingRules sub dom) dom obj act)).find?
      (effectIs "deny") with
  | some rule => (false, rule, none)
  | none =>
    match (s.permissionRules.filter
        (ruleMatches (sub :: impliedRoles s.groupingRules sub dom) dom obj act)).find?
        (effectIs "allow") with
    | some rule => (true, rule, none)
    | none => (false, [], none)

/-- Modelled from the spec: `distinctDomains()` of §4.1 and §3: the distinct
domain values across PermissionRule rows (second field) and GroupingRule rows
(third field). -/
def RuleStore.distinctDomains (s : RuleStore) : List String :=
  (s.permissionRules.filterMap (fun rule => rule[1]?)
    ++ s.groupingRules.filterMap (fun rule => rule[2]?)).dedup

/-- Modelled from the spec: `distinctRoles()` of §4.1 and §3: the distinct
values of the role field of the GroupingRule rows. -/
def RuleStore.distinctRoles (s : RuleStore) : List String :=
  (s.groupingRules.filterMap (fun rule => rule[1]?)).dedup

/-- Modelled from the spec: `groupingRulesFilteredByDomain` of §4.1, in the
shape of the call the handler makes (a field index and the values wanted from
that field on): the GroupingRule rows carrying those values there. -/
def RuleStore.filteredGrouping (fieldIndex : Nat) (fieldValues : List String) (s : RuleStore) :
    List Rule :=
  s.groupingRules.filter (fun rule => (rule.drop fieldIndex).take fieldValues.length = fieldValues)

/-- Modelled from the spec: the engine of §4 as the enforcer `main.go`
drives; the library that implements it is not part of the sources. -/
def specEngine : Enforcer RuleStore where
  LoadPolicy := RuleStore.reload
  SavePolicy := RuleStore.persist
  AddRoleForUserInDomain := RuleStore.add
  UpdateGroupingPolicies := RuleStore.update
  RemoveGroupingPolicies := RuleStore.remove
  EnforceEx := RuleStore.enforce
  GetAllDomains := fun s => (s.distinctDomains, none)
  GetAllRoles := fun s => (s.distinctRoles, none)
  GetFilteredGroupingPolicy := fun i vs s => (s.filteredGrouping i vs, none)
  GetRolesForUserInDomain := fun user domain s => rolesOf s.groupingRules user domain
  GetPolicy := fun s => (s.permissionRules, none)
  GetGroupingPolicy := fun s => (s.groupingRules, none)

/-- A store whose memory and persisted copy both hold `p` and `g`, on a
healthy medium. -/
def RuleStore.ofRules (p g : List Rule) : RuleStore :=
  ⟨p, g, p, g, none, none⟩

/-- The store of Scenario A of §8, with a deny rule added for `delete`. -/
def demoStore : RuleStore :=
  RuleStore.ofRules
    [["owner", "teamX", "repo1", "write", "allow"],
     ["owner", "teamX", "repo1", "delete", "deny"]]
    [["alice", "owner", "teamX"]]

/-- A store in which carol is a moderator of teamX, on a medium that can
be read but not written. -/
def readOnlyStore : RuleStore :=
  ⟨[], [["carol", "moderator", "teamX"]], [], [["carol", "moderator", "teamX"]],
    none, some "policy.csv: read-only file system"⟩

/-- A store in which carol is a moderator of teamX and the role owner itself
holds the role moderator there (a role-of-role edge of §4.2). -/
def hierarchyStore : RuleStore :=
  RuleStore.ofRules [] [["carol", "moderator", "teamX"], ["owner", "moderator", "teamX"]]

/-- A store whose persisted grouping relation lists the same tuple twice. -/
def repeatedStore : RuleStore :=
  RuleStore.ofRules [] [["alice", "owner", "teamX"], ["alice", "owner", "teamX"]]

/-- A store in which carol holds two roles in teamX, next to a tuple of
another subject. -/
def twoRolesStore : RuleStore :=
  RuleStore.ofRules []
    [["carol", "moderator", "teamX"], ["bob", "owner", "teamX"], ["carol", "owner", "teamX"]]

/-- Modelled from the spec: the grouping rules `add` of §4.4 leaves: the tuple
appended unless it is already there. -/
def withRule (g : List Rule) (subject role domain : String) : List Rule :=
  if [subject, role, domain] ∈ g then g else g ++ [[subject, role, domain]]

/-- Modelled from the spec: the grouping rules a `replace` of §4.4 leaves when
it changes the store: the rows listed for the subject's roles removed, the
new tuple appended. -/
def replaced (g : List Rule) (subject role domain : String) : List Rule :=
  g.filter (fun rule => rule ∉ (rolesOf g subject domain).map (fun r => [subject, r, domain]))
    ++ [[subject, role, domain]]

/-! ## The handlers over any enforcer -/

theorem foldl_append_rows (f : String → Rule) (roles : List String) (init : List Rule) :
    roles.foldl (fun oldPolicy role => oldPolicy ++ [f role]) init = init ++ roles.map f := by
  induction roles generalizing init with
  | nil => simp
  | cons r rest ih => simp [ih]

theorem oldPolicyOf_eq_map (subject domain : String) (roles : List String) :
    oldPolicyOf subject domain roles = roles.map (fun role => [subject, role, domain]) := by
  unfold oldPolicyOf
  rw [foldl_append_rows (fun role => [subject, role, domain]) roles []]
  simp

theorem not_rejected_of_whitelisted {role : String}
    (h : role = "owner" ∨ role = "moderator") : ¬ (role ≠ "owner" ∧ role ≠ "moderator") := by
  rcases h with h | h <;> simp [h]

section Paths
variable {σ : Type} (E : Enforcer σ)

theorem memberPost_load_failed (domain : String) (req : requestRole) (st st1 : σ) (err : String)
    (hr : req.Role = "owner" ∨ req.Role = "moderator")
    (h1 : E.LoadPolicy st = (some err, st1)) :
    memberPost E domain (.ok req) ⟨st, []⟩ = (errorJSON 500 err, ⟨st1, [Call.LoadPolicy]⟩) := by
  simp [memberPost, not_rejected_of_whitelisted hr, loadPolicy, World.move, h1]

theorem memberPost_add_failed (domain : String) (req : requestRole) (st st1 st2 : σ)
    (ok : Bool) (err : String)
    (hr : req.Role = "owner" ∨ req.Role = "moderator")
    (h1 : E.LoadPolicy st = (none, st1))
    (h2 : E.AddRoleForUserInDomain req.Subject req.Role domain st1 = ((ok, some err), st2)) :
    memberPost E domain (.ok req) ⟨st, []⟩
      = (errorJSON 500 err,
          ⟨st2, [Call.LoadPolicy, Call.AddRoleForUserInDomain req.Subject req.Role domain]⟩) := by
  simp [memberPost, not_rejected_of_whitelisted hr, loadPolicy, addRoleForUserInDomain,
    World.move, h1, h2]

theorem memberPost_saved (domain : String) (req : requestRole) (st st1 st2 st3 : σ)
    (ok : Bool) (e3 : Option String)
    (hr : req.Role = "owner" ∨ req.Role = "moderator")
    (h1 : E.LoadPolicy st = (none, st1))
    (h2 : E.AddRoleForUserInDomain req.Subject req.Role domain st1 = ((ok, none), st2))
    (h3 : E.SavePolicy st2 = (e3, st3)) :
    memberPost E domain (.ok req) ⟨st, []⟩
      = (e3.elim (if !ok then errorJSON 400 "failed to add role" else messageJSON 200 "role added")
            (fun err => errorJSON 500 err),
          ⟨st3, [Call.LoadPolicy, Call.AddRoleForUserInDomain req.Subject req.Role domain,
            Call.SavePolicy]⟩) := by
  cases e3 <;> cases ok <;>
    simp [memberPost, not_rejected_of_whitelisted hr, loadPolicy, addRoleForUserInDomain,
      savePolicy, World.move, h1, h2, h3]

theorem memberPut_load_failed (domain : String) (req : requestRole) (st st1 : σ) (err : String)
    (hr : req.Role = "owner" ∨ req.Role = "moderator")
    (h1 : E.LoadPolicy st = (some err, st1)) :
    memberPut E domain (.ok req) ⟨st, []⟩ = (errorJSON 500 err, ⟨st1, [Call.LoadPolicy]⟩) := by
  simp [memberPut, not_rejected_of_whitelisted hr, loadPolicy, World.move, h1]

theorem memberPut_not_found (domain : String) (req : requestRole) (st st1 : σ)
    (hr : req.Role = "owner" ∨ req.Role = "moderator")
    (h1 : E.LoadPolicy st = (none, st1))
    (h0 : E.GetRolesForUserInDomain req.Subject domain st1 = []) :
    memberPut E domain (.ok req) ⟨st, []⟩
      = (errorJSON 400 "user does not exist",
          ⟨st1, [Call.LoadPolicy, Call.GetRolesForUserInDomain req.Subject domain]⟩) := by
  simp [memberPut, not_rejected_of_whitelisted hr, loadPolicy, getRolesForUserInDomain,
    World.move, World.note, h1, h0]

theorem memberPut_update_failed (domain : String) (req : requestRole) (st st1 st2 : σ)
    (ok : Bool) (err : String)
    (hr : req.Role = "owner" ∨ req.Role = "moderator")
    (h1 : E.LoadPolicy st = (none, st1))
    (h0 : E.GetRolesForUserInDomain req.Subject domain st1 ≠ [])
    (h2 : E.UpdateGroupingPolicies
        ((E.GetRolesForUserInDomain req.Subject domain st1).map
          (fun role => [req.Subject, role, domain]))
        [[req.Subject, req.Role, domain]] st1 = ((ok, some err), st2)) :
    memberPut E domain (.ok req) ⟨st, []⟩
      = (errorJSON 500 err,
          ⟨st2, [Call.LoadPolicy, Call.GetRolesForUserInDomain req.Subject domain,
            Call.UpdateGroupingPolicies
              ((E.GetRolesForUserInDomain req.Subject domain st1).map
                (fun role => [req.Subject, role, domain]))
              [[req.Subject, req.Role, domain]]]⟩) := by
  simp [memberPut, not_rejected_of_whitelisted hr, loadPolicy, getRolesForUserInDomain,
    updateGroupingPolicies, World.move, World.note, h1, h0, oldPolicyOf_eq_map, h2]

theorem memberPut_saved (domain : String) (req : requestRole) (st st1 st2 st3 : σ)
    (ok : Bool) (e3 : Option String)
    (hr : req.Role = "owner" ∨ req.Role = "moderator")
    (h1 : E.LoadPolicy st = (none, st1))
    (h0 : E.GetRolesForUserInDomain req.Subject domain st1 ≠ [])
    (h2 : E.UpdateGroupingPolicies
        ((E.GetRolesForUserInDomain req.Subject domain st1).map
          (fun role => [req.Subject, role, domain]))
        [[req.Subject, req.Role, domain]] st1 = ((ok, none), st2))
    (h3 : E.SavePolicy st2 = (e3, st3)) :
    memberPut E domain (.ok req) ⟨st, []⟩
      = (e3.elim (if !ok then errorJSON 400 "failed to delete role" else messageJSON 200 "role updated")
            (fun err => errorJSON 500 err),
          ⟨st3, [Call.LoadPolicy, Call.GetRolesForUserInDomain req.Subject domain,
            Call.UpdateGroupingPolicies
              ((E.GetRolesForUserInDomain req.Subject domain st1).map
                (fun role => [req.Subject, role, domain]))
              [[req.Subject, req.Role, domain]],
            Call.SavePolicy]⟩) := by
  cases e3 <;> cases ok <;>
    simp [memberPut, not_rejected_of_whitelisted hr, loadPolicy, getRolesForUserInDomain,
      updateGroupingPolicies, savePolicy, World.move, World.note, h1, h0, oldPolicyOf_eq_map,
      h2, h3]

theorem memberDelete_load_failed (domain : String) (req : requestSubject) (st st1 : σ)
    (err : String) (h1 : E.LoadPolicy st = (some err, st1)) :
    memberDelete E domain (.ok req) ⟨st, []⟩ = (errorJSON 500 err, ⟨st1, [Call.LoadPolicy]⟩) := by
  simp [memberDelete, loadPolicy, World.move, h1]

theorem memberDelete_not_found (domain : String) (req : requestSubject) (st st1 : σ)
    (h1 : E.LoadPolicy st = (none, st1))
    (h0 : E.GetRolesForUserInDomain req.Subject domain st1 = []) :
    memberDelete E domain (.ok req) ⟨st, []⟩
      = (errorJSON 400 "user does not exist",
          ⟨st1, [Call.LoadPolicy, Call.GetRolesForUserInDomain req.Subject domain]⟩) := by
  simp [memberDelete, loadPolicy, getRolesForUserInDomain, World.move, World.note, h1, h0]

theorem memberDelete_saved (domain : String) (req : requestSubject) (st st1 st2 st3 : σ)
    (ok : Bool) (e3 : Option String)
    (h1 : E.LoadPolicy st = (none, st1))
    (h0 : E.GetRolesForUserInDomain req.Subject domain st1 ≠ [])
    (h2 : E.RemoveGroupingPolicies
        ((E.GetRolesForUserInDomain req.Subject domain st1).map
          (fun role => [req.Subject, role, domain])) st1 = ((ok, none), st2))
    (h3 : E.SavePolicy st2 = (e3, st3)) :
    memberDelete E domain (.ok req) ⟨st, []⟩
      = (e3.elim (if !ok then errorJSON 400 "failed to delete role" else messageJSON 200 "role deleted")
            (fun err => errorJSON 500 err),
          ⟨st3, [Call.LoadPolicy, Call.GetRolesForUserInDomain req.Subject domain,
            Call.RemoveGroupingPolicies
              ((E.GetRolesForUserInDomain req.Subject domain st1).map
                (fun role => [req.Subject, role, domain])),
            Call.SavePolicy]⟩) := by
  cases e3 <;> cases ok <;>
    simp [memberDelete, loadPolicy, getRolesForUserInDomain, removeGroupingPolicies, savePolicy,
      World.move, World.note, h1, h0, oldPolicyOf_eq_map, h2, h3]

end Paths

section Reload
variable {σ : Type} (E : Enforcer σ)

theorem memberPost_first_call (domain : String) (req : requestRole) (st : σ)
    (hr : req.Role = "owner" ∨ req.Role = "moderator") :
    (memberPost E domain (.ok req) ⟨st, []⟩).2.calls.head? = some Call.LoadPolicy := by
  rcases h1 : E.LoadPolicy st with ⟨_ | err, st1⟩
  · rcases h2 : E.AddRoleForUserInDomain req.Subject req.Role domain st1
      with ⟨⟨ok, _ | err2⟩, st2⟩
    · rcases h3 : E.SavePolicy st2 with ⟨e3, st3⟩
      rw [memberPost_saved E domain req st st1 st2 st3 ok e3 hr h1 h2 h3]
      simp
    · rw [memberPost_add_failed E domain req st st1 st2 ok err2 hr h1 h2]
      simp
  · rw [memberPost_load_failed E domain req st st1 err hr h1]
    simp

theorem memberPut_first_call (domain : String) (req : requestRole) (st : σ)
    (hr : req.Role = "owner" ∨ req.Role = "moderator") :
    (memberPut E domain (.ok req) ⟨st, []⟩).2.calls.head? = some Call.LoadPolicy := by
  rcases h1 : E.LoadPolicy st with ⟨_ | err, st1⟩
  · by_cases h0 : E.GetRolesForUserInDomain req.Subject domain st1 = []
    · rw [memberPut_not_found E domain req st st1 hr h1 h0]
      simp
    · rcases h2 : E.UpdateGroupingPolicies
          ((E.GetRolesForUserInDomain req.Subject domain st1).map
            (fun role => [req.Subject, role, domain]))
          [[req.Subject, req.Role, domain]] st1 with ⟨⟨ok, _ | err2⟩, st2⟩
      · rcases h3 : E.SavePolicy st2 with ⟨e3, st3⟩
        rw [memberPut_saved E domain req st st1 st2 st3 ok e3 hr h1 h0 h2 h3]
        simp
      · rw [memberPut_update_failed E domain req st st1 st2 ok err2 hr h1 h0 h2]
        simp
  · rw [memberPut_load_failed E domain req st st1 err hr h1]
    simp

end Reload

/-! ## Claims about the handlers, for every enforcer -/

/-- C1: a `POST` or `PUT /members/:domain` request whose role is neither
"owner" nor "moderator" is answered 400 "role must be owner or moderator"
with the engine untouched (same state, no call logged: no reload, no
mutation, no persist); a request whose role is one of the two is not
answered that way and goes on to the engine, starting with the reload. -/
theorem role_whitelist_checked_before_engine {σ : Type} (E : Enforcer σ) (domain : String)
    (req : requestRole) (st : σ) :
    ((req.Role ≠ "owner" ∧ req.Role ≠ "moderator") →
        memberPost E domain (.ok req) ⟨st, []⟩
            = (errorJSON 400 "role must be owner or moderator", ⟨st, []⟩)
        ∧ memberPut E domain (.ok req) ⟨st, []⟩
            = (errorJSON 400 "role must be owner or moderator", ⟨st, []⟩))
    ∧ ((req.Role = "owner" ∨ req.Role = "moderator") →
        (memberPost E domain (.ok req) ⟨st, []⟩).1
            ≠ errorJSON 400 "role must be owner or moderator"
        ∧ (memberPost E domain (.ok req) ⟨st, []⟩).2.calls.head? = some Call.LoadPolicy
        ∧ (memberPut E domain (.ok req) ⟨st, []⟩).1
            ≠ errorJSON 400 "role must be owner or moderator"
        ∧ (memberPut E domain (.ok req) ⟨st, []⟩).2.calls.head? = some Call.LoadPolicy) := by
  constructor
  · intro h
    simp [memberPost, memberPut, h]
  · intro hr
    refine ⟨?_, memberPost_first_call E domain req st hr, ?_,
      memberPut_first_call E domain req st hr⟩
    · rcases h1 : E.LoadPolicy st with ⟨_ | err, st1⟩
      · rcases h2 : E.AddRoleForUserInDomain req.Subject req.Role domain st1
          with ⟨⟨ok, _ | err2⟩, st2⟩
        · rcases h3 : E.SavePolicy st2 with ⟨e3, st3⟩
          rw [memberPost_saved E domain req st st1 st2 st3 ok e3 hr h1 h2 h3]
          cases e3 <;> cases ok <;> simp [errorJSON, messageJSON]
        · rw [memberPost_add_failed E domain req st st1 st2 ok err2 hr h1 h2]
          simp [errorJSON]
      · rw [memberPost_load_failed E domain req st st1 err hr h1]
        simp [errorJSON]
    · rcases h1 : E.LoadPolicy st with ⟨_ | err, st1⟩
      · by_cases h0 : E.GetRolesForUserInDomain req.Subject domain st1 = []
        · rw [memberPut_not_found E domain req st st1 hr h1 h0]
          simp [errorJSON]
        · rcases h2 : E.UpdateGroupingPolicies
              ((E.GetRolesForUserInDomain req.Subject domain st1).map
                (fun role => [req.Subject, role, domain]))
              [[req.Subject, req.Role, domain]] st1 with ⟨⟨ok, _ | err2⟩, st2⟩
          · rcases h3 : E.SavePolicy st2 with ⟨e3, st3⟩
            rw [memberPut_saved E domain req st st1 st2 st3 ok e3 hr h1 h0 h2 h3]
            cases e3 <;> cases ok <;> simp [errorJSON, messageJSON]
          · rw [memberPut_update_failed E domain req st st1 st2 ok err2 hr h1 h0 h2]
            simp [errorJSON]
      · rw [memberPut_load_failed E domain req st st1 err hr h1]
        simp [errorJSON]

theorem role_whitelist_checked_before_engine_witness :
    (("admin" ≠ "owner" ∧ "admin" ≠ "moderator")
      ∧ memberPost specEngine "teamX" (.ok ⟨"carol", "admin"⟩) ⟨demoStore, []⟩
          = (errorJSON 400 "role must be owner or moderator", ⟨demoStore, []⟩)
      ∧ memberPut specEngine "teamX" (.ok ⟨"carol", "admin"⟩) ⟨demoStore, []⟩
          = (errorJSON 400 "role must be owner or moderator", ⟨demoStore, []⟩))
    ∧ (("owner" = "owner" ∨ "owner" = "moderator")
      ∧ (memberPost specEngine "teamX" (.ok ⟨"carol", "owner"⟩) ⟨demoStore, []⟩).1
          ≠ errorJSON 400 "role must be owner or moderator"
      ∧ (memberPost specEngine "teamX" (.ok ⟨"carol", "owner"⟩) ⟨demoStore, []⟩).2.calls.head?
          = some Call.LoadPolicy
      ∧ (memberPut specEngine "teamX" (.ok ⟨"carol", "owner"⟩) ⟨demoStore, []⟩).1
          ≠ errorJSON 400 "role must be owner or moderator"
      ∧ (memberPut specEngine "teamX" (.ok ⟨"carol", "owner"⟩) ⟨demoStore, []⟩).2.calls.head?
          = some Call.LoadPolicy) :=
  ⟨⟨⟨by decide, by decide⟩,
      (role_whitelist_checked_before_engine specEngine "teamX" ⟨"carol", "admin"⟩ demoStore).1
        ⟨by decide, by decide⟩⟩,
    ⟨Or.inl rfl,
      (role_whitelist_checked_before_engine specEngine "teamX" ⟨"carol", "owner"⟩ demoStore).2
        (Or.inl rfl)⟩⟩

/-- C2: when the reload succeeds and the roles of the subject in the domain
come back empty, `PUT` (with a whitelisted role) and `DELETE
/members/:domain` both answer 400 "user does not exist"; the only calls made
are the reload and the role query, so no update, no removal and no persist
happens and the engine is left in the state the reload produced. -/
theorem not_found_leaves_store_as_reloaded {σ : Type} (E : Enforcer σ)
    (domain subject role : String) (st st1 : σ)
    (hr : role = "owner" ∨ role = "moderator")
    (h1 : E.LoadPolicy st = (none, st1))
    (h0 : E.GetRolesForUserInDomain subject domain st1 = []) :
    memberPut E domain (.ok ⟨subject, role⟩) ⟨st, []⟩
        = (errorJSON 400 "user does not exist",
            ⟨st1, [Call.LoadPolicy, Call.GetRolesForUserInDomain subject domain]⟩)
    ∧ memberDelete E domain (.ok ⟨subject⟩) ⟨st, []⟩
        = (errorJSON 400 "user does not exist",
            ⟨st1, [Call.LoadPolicy, Call.GetRolesForUserInDomain subject domain]⟩) :=
  ⟨memberPut_not_found E domain ⟨subject, role⟩ st st1 hr h1 h0,
    memberDelete_not_found E domain ⟨subject⟩ st st1 h1 h0⟩

theorem not_found_leaves_store_as_reloaded_witness :
    ("moderator" = "owner" ∨ "moderator" = "moderator")
    ∧ specEngine.LoadPolicy demoStore = (none, demoStore)
    ∧ specEngine.GetRolesForUserInDomain "bob" "teamX" demoStore = []
    ∧ memberPut specEngine "teamX" (.ok ⟨"bob", "moderator"⟩) ⟨demoStore, []⟩
        = (errorJSON 400 "user does not exist",
            ⟨demoStore, [Call.LoadPolicy, Call.GetRolesForUserInDomain "bob" "teamX"]⟩)
    ∧ memberDelete specEngine "teamX" (.ok ⟨"bob"⟩) ⟨demoStore, []⟩
        = (errorJSON 400 "user does not exist",
            ⟨demoStore, [Call.LoadPolicy, Call.GetRolesForUserInDomain "bob" "teamX"]⟩) :=
  ⟨Or.inr rfl, rfl, by decide,
    not_found_leaves_store_as_reloaded specEngine "teamX" "bob" "moderator" demoStore demoStore
      (Or.inr rfl) rfl (by decide)⟩

/-- C6: in `POST`, `PUT` and `DELETE /members/:domain`, when the reload
succeeds and the mutation call returns without error (reporting `ok`, true or
false), the calls made are the reload, (the role query,) the mutation and
then `SavePolicy`, once and last; and when that `SavePolicy` fails with
`err` the answer is 500 with `err`, neither the success answer nor the
plain-false one, while the engine keeps the mutated state. -/
theorem persist_once_after_mutation {σ : Type} (E : Enforcer σ) (domain : String)
    (st st1 st2 st3 : σ) (ok : Bool) (e3 : Option String)
    (h1 : E.LoadPolicy st = (none, st1)) (h3 : E.SavePolicy st2 = (e3, st3)) :
    (∀ req : requestRole, (req.Role = "owner" ∨ req.Role = "moderator") →
      E.AddRoleForUserInDomain req.Subject req.Role domain st1 = ((ok, none), st2) →
        (memberPost E domain (.ok req) ⟨st, []⟩).2
            = ⟨st3, [Call.LoadPolicy,
                Call.AddRoleForUserInDomain req.Subject req.Role domain, Call.SavePolicy]⟩
        ∧ ∀ err, e3 = some err →
            (memberPost E domain (.ok req) ⟨st, []⟩).1 = errorJSON 500 err)
    ∧ (∀ req : requestRole, (req.Role = "owner" ∨ req.Role = "moderator") →
      E.GetRolesForUserInDomain req.Subject domain st1 ≠ [] →
      E.UpdateGroupingPolicies
          ((E.GetRolesForUserInDomain req.Subject domain st1).map
            (fun role => [req.Subject, role, domain]))
          [[req.Subject, req.Role, domain]] st1 = ((ok, none), st2) →
        (memberPut E domain (.ok req) ⟨st, []⟩).2
            = ⟨st3, [Call.LoadPolicy, Call.GetRolesForUserInDomain req.Subject domain,
                Call.UpdateGroupingPolicies
                  ((E.GetRolesForUserInDomain req.Subject domain st1).map
                    (fun role => [req.Subject, role, domain]))
                  [[req.Subject, req.Role, domain]],
                Call.SavePolicy]⟩
        ∧ ∀ err, e3 = some err →
            (memberPut E domain (.ok req) ⟨st, []⟩).1 = errorJSON 500 err)
    ∧ (∀ req : requestSubject,
      E.GetRolesForUserInDomain req.Subject domain st1 ≠ [] →
      E.RemoveGroupingPolicies
          ((E.GetRolesForUserInDomain req.Subject domain st1).map
            (fun role => [req.Subject, role, domain])) st1 = ((ok, none), st2) →
        (memberDelete E domain (.ok req) ⟨st, []⟩).2
            = ⟨st3, [Call.LoadPolicy, Call.GetRolesForUserInDomain req.Subject domain,
                Call.RemoveGroupingPolicies
                  ((E.GetRolesForUserInDomain req.Subject domain st1).map
                    (fun role => [req.Subject, role, domain])),
                Call.SavePolicy]⟩
        ∧ ∀ err, e3 = some err →
            (memberDelete E domain (.ok req) ⟨st, []⟩).1 = errorJSON 500 err) := by
  refine ⟨?_, ?_, ?_⟩
  · intro req hr h2
    rw [memberPost_saved E domain req st st1 st2 st3 ok e3 hr h1 h2 h3]
    refine ⟨rfl, ?_⟩
    intro err he
    subst he
    rfl
  · intro req hr h0 h2
    rw [memberPut_saved E domain req st st1 st2 st3 ok e3 hr h1 h0 h2 h3]
    refine ⟨rfl, ?_⟩
    intro err he
    subst he
    rfl
  · intro req h0 h2
    rw [memberDelete_saved E domain req st st1 st2 st3 ok e3 h1 h0 h2 h3]
    refine ⟨rfl, ?_⟩
    intro err he
    subst he
    rfl

theorem persist_once_after_mutation_witness :
    (specEngine.LoadPolicy readOnlyStore = (none, readOnlyStore)
      ∧ ("owner" = "owner" ∨ "owner" = "moderator")
      ∧ specEngine.GetRolesForUserInDomain "carol" "teamX" readOnlyStore ≠ []
      ∧ specEngine.AddRoleForUserInDomain "carol" "owner" "teamX" readOnlyStore
          = ((true, none),
              { readOnlyStore with groupingRules :=
                  [["carol", "moderator", "teamX"], ["carol", "owner", "teamX"]] })
      ∧ specEngine.UpdateGroupingPolicies [["carol", "moderator", "teamX"]]
          [["carol", "owner", "teamX"]] readOnlyStore
          = ((true, none), { readOnlyStore with groupingRules := [["carol", "owner", "teamX"]] })
      ∧ specEngine.RemoveGroupingPolicies [["carol", "moderator", "teamX"]] readOnlyStore
          = ((true, none), { readOnlyStore with groupingRules := [] }))
    ∧ (memberPost specEngine "teamX" (.ok ⟨"carol", "owner"⟩) ⟨readOnlyStore, []⟩
        = (errorJSON 500 "policy.csv: read-only file system",
            ⟨{ readOnlyStore with groupingRules :=
                [["carol", "moderator", "teamX"], ["carol", "owner", "teamX"]] },
              [Call.LoadPolicy, Call.AddRoleForUserInDomain "carol" "owner" "teamX",
                Call.SavePolicy]⟩))
    ∧ (memberPut specEngine "teamX" (.ok ⟨"carol", "owner"⟩) ⟨readOnlyStore, []⟩).1
        = errorJSON 500 "policy.csv: read-only file system"
    ∧ (memberDelete specEngine "teamX" (.ok ⟨"carol"⟩) ⟨readOnlyStore, []⟩).1
        = errorJSON 500 "policy.csv: read-only file system" :=
  ⟨⟨rfl, Or.inl rfl, by decide, by decide, by decide, by decide⟩,
    Prod.ext
      (((persist_once_after_mutation specEngine "teamX" readOnlyStore readOnlyStore
        { readOnlyStore with groupingRules :=
            [["carol", "moderator", "teamX"], ["carol", "owner", "teamX"]] }
        { readOnlyStore with groupingRules :=
            [["carol", "moderator", "teamX"], ["carol", "owner", "teamX"]] }
        true (some "policy.csv: read-only file system") rfl rfl).1
        ⟨"carol", "owner"⟩ (Or.inl rfl) (by decide)).2 _ rfl)
      (((persist_once_after_mutation specEngine "teamX" readOnlyStore readOnlyStore
        { readOnlyStore with groupingRules :=
            [["carol", "moderator", "teamX"], ["carol", "owner", "teamX"]] }
        { readOnlyStore with groupingRules :=
            [["carol", "moderator", "teamX"], ["carol", "owner", "teamX"]] }
        true (some "policy.csv: read-only file system") rfl rfl).1
        ⟨"carol", "owner"⟩ (Or.inl rfl) (by decide)).1),
    ((persist_once_after_mutation specEngine "teamX" readOnlyStore readOnlyStore
      { readOnlyStore with groupingRules := [["carol", "owner", "teamX"]] }
      { readOnlyStore with groupingRules := [["carol", "owner", "teamX"]] }
      true (some "policy.csv: read-only file system") rfl rfl).2.1
      ⟨"carol", "owner"⟩ (Or.inl rfl) (by decide) (by decide)).2 _ rfl,
    ((persist_once_after_mutation specEngine "teamX" readOnlyStore readOnlyStore
      { readOnlyStore with groupingRules := [] }
      { readOnlyStore with groupingRules := [] }
      true (some "policy.csv: read-only file system") rfl rfl).2.2
      ⟨"carol"⟩ (by decide) (by decide)).2 _ rfl⟩

/-- C8, as the handler has it: when the reload succeeds and `EnforceEx`
returns without error, an allow decision is answered 200 with the engine's
explanation as the message, and a deny decision is answered 403 with the
fixed message "forbidden", whatever the explanation was. -/
theorem enforce_explains_allow_only {σ : Type} (E : Enforcer σ) (req : requestEnforce)
    (st st1 : σ) (ok : Bool) (reason : List String)
    (h1 : E.LoadPolicy st = (none, st1))
    (h2 : E.EnforceEx req.Subject req.Domain req.Object req.Action st1 = (ok, reason, none)) :
    (ok = true → (postEnforce E (.ok req) ⟨st, []⟩).1
        = ⟨200, "message", Payload.strings reason⟩)
    ∧ (ok = false → (postEnforce E (.ok req) ⟨st, []⟩).1 = messageJSON 403 "forbidden") := by
  constructor <;> intro h <;> subst h <;>
    simp [postEnforce, loadPolicy, enforceEx, World.move, World.note, h1, h2]

theorem enforce_explains_allow_only_witness :
    (specEngine.LoadPolicy demoStore = (none, demoStore)
      ∧ specEngine.EnforceEx "alice" "teamX" "repo1" "write" demoStore
          = (true, ["owner", "teamX", "repo1", "write", "allow"], none))
    ∧ (postEnforce specEngine (.ok ⟨"alice", "teamX", "repo1", "write"⟩) ⟨demoStore, []⟩).1
        = ⟨200, "message", Payload.strings ["owner", "teamX", "repo1", "write", "allow"]⟩ :=
  ⟨⟨rfl, by decide⟩,
    (enforce_explains_allow_only specEngine ⟨"alice", "teamX", "repo1", "write"⟩ demoStore
      demoStore true ["owner", "teamX", "repo1", "write", "allow"] rfl (by decide)).1 rfl⟩

/-- C8 as stated fails on a deny: with the deny rule of `demoStore` the
engine decides deny and explains it with the matched rule, without error, and
the handler answers 403 "forbidden", which does not carry that rule. -/
theorem enforce_deny_drops_explanation :
    specEngine.LoadPolicy demoStore = (none, demoStore)
    ∧ specEngine.EnforceEx "alice" "teamX" "repo1" "delete" demoStore
        = (false, ["owner", "teamX", "repo1", "delete", "deny"], none)
    ∧ (postEnforce specEngine (.ok ⟨"alice", "teamX", "repo1", "delete"⟩) ⟨demoStore, []⟩).1
        = messageJSON 403 "forbidden"
    ∧ (postEnforce specEngine (.ok ⟨"alice", "teamX", "repo1", "delete"⟩) ⟨demoStore, []⟩).1.value
        ≠ Payload.strings ["owner", "teamX", "repo1", "delete", "deny"] := by
  refine ⟨rfl, by decide, by decide, by decide⟩

/-- C10: a `PUT /members/:domain` request that passes validation and reload
while the subject holds the roles `r1 … rk` (`k ≥ 1`) invokes
`UpdateGroupingPolicies` on the reloaded state with the old rows
`[subject, ri, domain]`, one per role and in that order, and the single new
row `[subject, newRole, domain]`: the whole outcome of the handler is what
that call returns (its error answered 500, otherwise its state handed to
`SavePolicy` and its `ok` deciding the answer).  The two lists have lengths
`k` and 1, equal exactly when the subject holds one role. -/
theorem replace_passes_every_role_and_one_new_row {σ : Type} (E : Enforcer σ)
    (domain : String) (req : requestRole) (st st1 st2 st3 : σ) (ok : Bool)
    (e2 e3 : Option String)
    (hr : req.Role = "owner" ∨ req.Role = "moderator")
    (h1 : E.LoadPolicy st = (none, st1))
    (h0 : E.GetRolesForUserInDomain req.Subject domain st1 ≠ [])
    (h2 : E.UpdateGroupingPolicies
        ((E.GetRolesForUserInDomain req.Subject domain st1).map
          (fun role => [req.Subject, role, domain]))
        [[req.Subject, req.Role, domain]] st1 = ((ok, e2), st2))
    (h3 : E.SavePolicy st2 = (e3, st3)) :
    memberPut E domain (.ok req) ⟨st, []⟩
        = e2.elim
            (e3.elim (if !ok then errorJSON 400 "failed to delete role"
                      else messageJSON 200 "role updated")
                (fun err => errorJSON 500 err),
              ⟨st3, [Call.LoadPolicy, Call.GetRolesForUserInDomain req.Subject domain,
                Call.UpdateGroupingPolicies
                  ((E.GetRolesForUserInDomain req.Subject domain st1).map
                    (fun role => [req.Subject, role, domain]))
                  [[req.Subject, req.Role, domain]],
                Call.SavePolicy]⟩)
            (fun err => (errorJSON 500 err,
              ⟨st2, [Call.LoadPolicy, Call.GetRolesForUserInDomain req.Subject domain,
                Call.UpdateGroupingPolicies
                  ((E.GetRolesForUserInDomain req.Subject domain st1).map
                    (fun role => [req.Subject, role, domain]))
                  [[req.Subject, req.Role, domain]]]⟩))
    ∧ (memberPut E domain (.ok req) ⟨st, []⟩).2.calls.take 3
        = [Call.LoadPolicy, Call.GetRolesForUserInDomain req.Subject domain,
            Call.UpdateGroupingPolicies
              ((E.GetRolesForUserInDomain req.Subject domain st1).map
                (fun role => [req.Subject, role, domain]))
              [[req.Subject, req.Role, domain]]]
    ∧ ((E.GetRolesForUserInDomain req.Subject domain st1).map
          (fun role => [req.Subject, role, domain])).length
        = (E.GetRolesForUserInDomain req.Subject domain st1).length
    ∧ [[req.Subject, req.Role, domain]].length = 1
    ∧ (((E.GetRolesForUserInDomain req.Subject domain st1).map
          (fun role => [req.Subject, role, domain])).length
          = [[req.Subject, req.Role, domain]].length
        ↔ (E.GetRolesForUserInDomain req.Subject domain st1).length = 1) := by
  have hrun : memberPut E domain (.ok req) ⟨st, []⟩
      = e2.elim
          (e3.elim (if !ok then errorJSON 400 "failed to delete role"
                    else messageJSON 200 "role updated")
              (fun err => errorJSON 500 err),
            ⟨st3, [Call.LoadPolicy, Call.GetRolesForUserInDomain req.Subject domain,
              Call.UpdateGroupingPolicies
                ((E.GetRolesForUserInDomain req.Subject domain st1).map
                  (fun role => [req.Subject, role, domain]))
                [[req.Subject, req.Role, domain]],
              Call.SavePolicy]⟩)
          (fun err => (errorJSON 500 err,
            ⟨st2, [Call.LoadPolicy, Call.GetRolesForUserInDomain req.Subject domain,
              Call.UpdateGroupingPolicies
                ((E.GetRolesForUserInDomain req.Subject domain st1).map
                  (fun role => [req.Subject, role, domain]))
                [[req.Subject, req.Role, domain]]]⟩)) := by
    cases e2 with
    | none => exact memberPut_saved E domain req st st1 st2 st3 ok e3 hr h1 h0 h2 h3
    | some err => exact memberPut_update_failed E domain req st st1 st2 ok err hr h1 h0 h2
  refine ⟨hrun, ?_, by simp, by simp, by simp⟩
  rw [hrun]
  cases e2 <;> simp

theorem replace_passes_every_role_and_one_new_row_witness :
    ((("moderator" = "owner" ∨ "moderator" = "moderator")
        ∧ specEngine.LoadPolicy demoStore = (none, demoStore)
        ∧ specEngine.GetRolesForUserInDomain "alice" "teamX" demoStore = ["owner"]
        ∧ specEngine.UpdateGroupingPolicies [["alice", "owner", "teamX"]]
            [["alice", "moderator", "teamX"]] demoStore
            = ((true, none), demoStore.withGrouping [["alice", "moderator", "teamX"]]))
      ∧ memberPut specEngine "teamX" (.ok ⟨"alice", "moderator"⟩) ⟨demoStore, []⟩
          = (messageJSON 200 "role updated",
              ⟨(demoStore.withGrouping [["alice", "moderator", "teamX"]]).saved,
                [Call.LoadPolicy, Call.GetRolesForUserInDomain "alice" "teamX",
                  Call.UpdateGroupingPolicies [["alice", "owner", "teamX"]]
                    [["alice", "moderator", "teamX"]],
                  Call.SavePolicy]⟩))
    ∧ ((specEngine.LoadPolicy twoRolesStore = (none, twoRolesStore)
        ∧ specEngine.GetRolesForUserInDomain "carol" "teamX" twoRolesStore
            = ["moderator", "owner"])
      ∧ (memberPut specEngine "teamX" (.ok ⟨"carol", "moderator"⟩)
          ⟨twoRolesStore, []⟩).2.calls.take 3
          = [Call.LoadPolicy, Call.GetRolesForUserInDomain "carol" "teamX",
              Call.UpdateGroupingPolicies
                [["carol", "moderator", "teamX"], ["carol", "owner", "teamX"]]
                [["carol", "moderator", "teamX"]]]
      ∧ ¬ (((specEngine.GetRolesForUserInDomain "carol" "teamX" twoRolesStore).map
              (fun role => ["carol", role, "teamX"])).length
            = [["carol", "moderator", "teamX"]].length)) :=
  ⟨⟨⟨Or.inr rfl, rfl, by decide, by decide⟩,
      (replace_passes_every_role_and_one_new_row specEngine "teamX" ⟨"alice", "moderator"⟩
        demoStore demoStore (demoStore.withGrouping [["alice", "moderator", "teamX"]])
        (demoStore.withGrouping [["alice", "moderator", "teamX"]]).saved
        true none none (Or.inr rfl) rfl (by decide) (by decide) rfl).1⟩,
    ⟨⟨rfl, by decide⟩,
      (replace_passes_every_role_and_one_new_row specEngine "teamX" ⟨"carol", "moderator"⟩
        twoRolesStore twoRolesStore _ _ _ _ _ (Or.inr rfl) rfl (by decide) rfl rfl).2.1,
      fun heq => absurd
        ((replace_passes_every_role_and_one_new_row specEngine "teamX" ⟨"carol", "moderator"⟩
          twoRolesStore twoRolesStore _ _ _ _ _ (Or.inr rfl) rfl (by decide) rfl
          rfl).2.2.2.2.mp heq)
        (by decide)⟩⟩

/-! ## The engine of the specification -/

theorem mem_rolesHeldBy (g : List Rule) (domain x r : String) :
    r ∈ rolesHeldBy g domain x ↔ [x, r, domain] ∈ g := by
  unfold rolesHeldBy
  rw [List.mem_filterMap]
  constructor
  · rintro ⟨rule, hmem, hrule⟩
    split at hrule
    · rename_i a b d
      by_cases hc : a = x ∧ d = domain
      · simp only [hc, and_self, if_true, Option.some.injEq] at hrule
        obtain ⟨ha, hd⟩ := hc
        rw [← ha, ← hd, ← hrule]
        exact hmem
      · simp [hc] at hrule
    · exact absurd hrule (by simp)
  · intro hmem
    exact ⟨[x, r, domain], hmem, by simp⟩

theorem rolesHeldBy_eq_nil (g : List Rule) (domain x : String)
    (h : ∀ r, [x, r, domain] ∉ g) : rolesHeldBy g domain x = [] := by
  apply List.eq_nil_iff_forall_not_mem.mpr
  intro r hr
  exact h r ((mem_rolesHeldBy g domain x r).mp hr)

theorem rolesHeldBy_append (g g2 : List Rule) (domain x : String) :
    rolesHeldBy (g ++ g2) domain x = rolesHeldBy g domain x ++ rolesHeldBy g2 domain x := by
  unfold rolesHeldBy
  rw [List.filterMap_append]

theorem mem_rolesOf (g : List Rule) (subject role domain : String) :
    role ∈ rolesOf g subject domain ↔ [subject, role, domain] ∈ g := by
  unfold rolesOf
  rw [List.mem_dedup, mem_rolesHeldBy]

theorem rolesOf_eq_nil (g : List Rule) (subject domain : String)
    (h : ∀ r, [subject, r, domain] ∉ g) : rolesOf g subject domain = [] := by
  unfold rolesOf
  rw [rolesHeldBy_eq_nil g domain subject h]
  rfl

theorem reach_empty_queue (n : Nat) (g : List Rule) (domain : String) (seen : List String) :
    reach n g domain [] seen = seen := by
  cases n <;> rfl

theorem seen_subset_reach (n : Nat) (g : List Rule) (domain : String) :
    ∀ (queue seen : List String), seen ⊆ reach n g domain queue seen := by
  induction n with
  | zero => intro queue seen; simp [reach]
  | succ n ih =>
    intro queue seen
    cases queue with
    | nil => simp [reach]
    | cons x rest =>
      simp only [reach]
      exact List.Subset.trans (List.subset_append_left _ _) (ih _ _)

theorem impliedRoles_eq_nil (g : List Rule) (subject domain : String)
    (h : ∀ r, [subject, r, domain] ∉ g) : impliedRoles g subject domain = [] := by
  unfold impliedRoles
  simp [reach, rolesHeldBy_eq_nil g domain subject h, reach_empty_queue]

theorem reach_expands (g : List Rule) (domain : String) (n : Nat) :
    ∀ (queue seen : List String) (x r : String), x ∈ queue.take n →
      r ∈ rolesHeldBy g domain x → r ∈ reach n g domain queue seen := by
  induction n with
  | zero => intro queue seen x r hx; simp at hx
  | succ n ih =>
    intro queue seen x r hx hr
    cases queue with
    | nil => simp at hx
    | cons y rest =>
      simp only [reach]
      rw [List.take_succ_cons, List.mem_cons] at hx
      rcases hx with hx | hx
      · subst hx
        apply seen_subset_reach
        by_cases hs : r ∈ seen
        · exact List.mem_append_left _ hs
        · exact List.mem_append_right _ (by simp [hr, hs])
      · apply ih _ _ x r _ hr
        rw [List.take_append_eq_append_take]
        exact List.mem_append_left _ hx

/-- P4 of §8 holds of the closure: a role held by a role the subject holds is
among the roles the subject holds through the hierarchy. -/
theorem impliedRoles_transitive (g : List Rule) (a b c domain : String)
    (hab : [a, b, domain] ∈ g) (hbc : [b, c, domain] ∈ g) : c ∈ impliedRoles g a domain := by
  unfold impliedRoles
  simp only [reach, List.nil_append]
  apply reach_expands g domain g.length _ _ b c _ ((mem_rolesHeldBy g domain b c).mpr hbc)
  have hlen : (List.filter (fun r => decide (r ∉ ([] : List String)))
      (rolesHeldBy g domain a)).dedup.length ≤ g.length := by
    calc (List.filter (fun r => decide (r ∉ ([] : List String)))
            (rolesHeldBy g domain a)).dedup.length
        ≤ (List.filter (fun r => decide (r ∉ ([] : List String)))
            (rolesHeldBy g domain a)).length := (List.dedup_sublist _).length_le
      _ ≤ (rolesHeldBy g domain a).length := List.length_filter_le _ _
      _ ≤ g.length := List.length_filterMap_le _ _
  rw [List.take_of_length_le hlen]
  simp [mem_rolesHeldBy, hab]

theorem mem_insertRules (rows : List Rule) :
    ∀ (g : List Rule) (r : Rule), r ∈ insertRules g rows ↔ r ∈ g ∨ r ∈ rows := by
  induction rows with
  | nil => intro g r; simp [insertRules]
  | cons x rest ih =>
    intro g r
    simp only [insertRules]
    rw [ih]
    by_cases hx : x ∈ g
    · simp only [hx, if_true, List.mem_cons]
      constructor
      · rintro (h | h)
        · exact Or.inl h
        · exact Or.inr (Or.inr h)
      · rintro (h | h | h)
        · exact Or.inl h
        · exact Or.inl (h ▸ hx)
        · exact Or.inr h
    · simp only [hx, if_false, List.mem_append, List.mem_singleton, List.mem_cons]
      tauto

theorem nodup_insertRules (rows : List Rule) :
    ∀ (g : List Rule), g.Nodup → (insertRules g rows).Nodup := by
  induction rows with
  | nil => intro g hg; simpa [insertRules] using hg
  | cons x rest ih =>
    intro g hg
    simp only [insertRules]
    apply ih
    by_cases hx : x ∈ g
    · simpa [hx] using hg
    · simp only [hx, if_false]
      rw [List.nodup_append]
      refine ⟨hg, List.nodup_singleton x, ?_⟩
      intro a ha hax
      rw [List.mem_singleton] at hax
      exact hx (hax ▸ ha)

theorem insertRules_of_nodup (rows : List Rule) :
    ∀ (g : List Rule), (g ++ rows).Nodup → insertRules g rows = g ++ rows := by
  induction rows with
  | nil => intro g _; simp [insertRules]
  | cons x rest ih =>
    intro g hg
    have hx : x ∉ g := by
      intro hmem
      rw [List.nodup_append] at hg
      exact hg.2.2 hmem (List.mem_cons_self x rest)
    simp only [insertRules, hx, if_false]
    rw [ih (g ++ [x]) (by simpa using hg)]
    simp

theorem mem_loadRows (rows : List Rule) (r : Rule) : r ∈ loadRows rows ↔ r ∈ rows := by
  unfold loadRows
  rw [mem_insertRules]
  simp

theorem nodup_loadRows (rows : List Rule) : (loadRows rows).Nodup :=
  nodup_insertRules rows [] List.nodup_nil

theorem loadRows_of_nodup (rows : List Rule) (h : rows.Nodup) : loadRows rows = rows := by
  unfold loadRows
  rw [insertRules_of_nodup rows [] (by simpa using h)]
  simp

theorem loadRows_loadRows (rows : List Rule) : loadRows (loadRows rows) = loadRows rows :=
  loadRows_of_nodup _ (nodup_loadRows rows)

theorem reload_ok (st : RuleStore) (h : st.readFailure = none) :
    specEngine.LoadPolicy st = (none, st.loaded) := by
  simp [specEngine, RuleStore.reload, h]

theorem reload_failed (st : RuleStore) (e : String) (h : st.readFailure = some e) :
    specEngine.LoadPolicy st = (some e, st) := by
  simp [specEngine, RuleStore.reload, h]

theorem persist_ok (st : RuleStore) (h : st.writeFailure = none) :
    specEngine.SavePolicy st = (none, st.saved) := by
  simp [specEngine, RuleStore.persist, h]

theorem persist_failed (st : RuleStore) (e : String) (h : st.writeFailure = some e) :
    specEngine.SavePolicy st = (some e, st) := by
  simp [specEngine, RuleStore.persist, h]

theorem old_rows_cover_direct (g : List Rule) (subject role domain : String)
    (h : [subject, role, domain] ∈ g) :
    [subject, role, domain] ∈ (rolesOf g subject domain).map (fun r => [subject, r, domain]) :=
  List.mem_map.mpr ⟨role, (mem_rolesOf g subject role domain).mpr h, rfl⟩

theorem old_rows_shape (g : List Rule) (subject domain : String) (rule : Rule)
    (h : rule ∈ (rolesOf g subject domain).map (fun r => [subject, r, domain])) :
    ∃ r, rule = [subject, r, domain] := by
  obtain ⟨r, _, hr⟩ := List.mem_map.mp h
  exact ⟨r, hr.symm⟩

theorem removed_rows_gone (g : List Rule) (subject domain r : String) :
    [subject, r, domain]
      ∉ g.filter (fun rule => rule ∉ (rolesOf g subject domain).map
          (fun r => [subject, r, domain])) := by
  intro hmem
  rw [List.mem_filter] at hmem
  have := old_rows_cover_direct g subject r domain hmem.1
  simp [this] at hmem

theorem other_rows_kept (g : List Rule) (subject domain : String) (rule : Rule)
    (h : ∀ r, rule ≠ [subject, r, domain]) :
    (g.filter (fun rule => rule ∉ (rolesOf g subject domain).map
        (fun r => [subject, r, domain]))).count rule = g.count rule := by
  apply List.count_filter
  have : rule ∉ (rolesOf g subject domain).map (fun r => [subject, r, domain]) := by
    intro hm
    obtain ⟨r, hr⟩ := old_rows_shape g subject domain rule hm
    exact h r hr
  simp [this]

/-- The state `DELETE /members/:domain` leaves on the engine of the
specification when it answers "role deleted", and the reload it started
from. -/
theorem delete_success_state (st : RuleStore) (subject domain : String)
    (h : (memberDelete specEngine domain (.ok ⟨subject⟩) ⟨st, []⟩).1
        = messageJSON 200 "role deleted") :
    specEngine.LoadPolicy st = (none, st.loaded)
    ∧ (memberDelete specEngine domain (.ok ⟨subject⟩) ⟨st, []⟩).2.state
      = (st.loaded.withGrouping (st.loaded.groupingRules.filter (fun rule =>
          rule ∉ (rolesOf st.loaded.groupingRules subject domain).map
            (fun r => [subject, r, domain])))).saved := by
  cases hrf : st.readFailure with
  | some e =>
    rw [memberDelete_load_failed specEngine domain ⟨subject⟩ st st e (reload_failed st e hrf)] at h
    simp [errorJSON, messageJSON] at h
  | none =>
    have h1 := reload_ok st hrf
    refine ⟨h1, ?_⟩
    by_cases h0 : rolesOf st.loaded.groupingRules subject domain = []
    · rw [memberDelete_not_found specEngine domain ⟨subject⟩ st _ h1 h0] at h
      simp [errorJSON, messageJSON] at h
    · by_cases hf : st.loaded.groupingRules.filter (fun rule =>
          rule ∉ (rolesOf st.loaded.groupingRules subject domain).map
            (fun r => [subject, r, domain])) = st.loaded.groupingRules
      · have h2 : specEngine.RemoveGroupingPolicies
            ((rolesOf st.loaded.groupingRules subject domain).map
              (fun r => [subject, r, domain])) st.loaded
            = ((false, none), st.loaded) := by
          exact if_pos hf
        rcases h3 : specEngine.SavePolicy st.loaded with ⟨e3, st3⟩
        rw [memberDelete_saved specEngine domain ⟨subject⟩ st _ _ st3 false e3 h1 h0 h2 h3] at h
        cases e3 <;> simp [errorJSON, messageJSON] at h
      · have h2 : specEngine.RemoveGroupingPolicies
            ((rolesOf st.loaded.groupingRules subject domain).map
              (fun r => [subject, r, domain])) st.loaded
            = ((true, none),
                st.loaded.withGrouping (st.loaded.groupingRules.filter (fun rule =>
                  rule ∉ (rolesOf st.loaded.groupingRules subject domain).map
                    (fun r => [subject, r, domain])))) := by
          exact if_neg hf
        cases hwf : st.writeFailure with
        | some e =>
          have h3 := persist_failed
            (st.loaded.withGrouping (st.loaded.groupingRules.filter (fun rule =>
              rule ∉ (rolesOf st.loaded.groupingRules subject domain).map
                (fun r => [subject, r, domain])))) e hwf
          rw [memberDelete_saved specEngine domain ⟨subject⟩ st _ _ _ true _ h1 h0 h2 h3] at h
          simp [errorJSON, messageJSON] at h
        | none =>
          have h3 := persist_ok
            (st.loaded.withGrouping (st.loaded.groupingRules.filter (fun rule =>
              rule ∉ (rolesOf st.loaded.groupingRules subject domain).map
                (fun r => [subject, r, domain])))) hwf
          rw [memberDelete_saved specEngine domain ⟨subject⟩ st _ _ _ true none h1 h0 h2 h3]

/-- C5: on the engine of the specification, when `DELETE /members/:domain`
answers "role deleted", the resulting store, in memory and persisted alike,
holds no grouping tuple `(subject, r, domain)` for any role `r`, so
`rolesOf(subject, domain)` is empty (and so is what the subject holds through
the hierarchy); every row that is not such a tuple is in the store exactly
when the persisted store held it before, and as often as in the store as
reloaded. -/
theorem remove_all_clears_roles (st : RuleStore) (subject domain : String)
    (h : (memberDelete specEngine domain (.ok ⟨subject⟩) ⟨st, []⟩).1
        = messageJSON 200 "role deleted") :
    (memberDelete specEngine domain (.ok ⟨subject⟩) ⟨st, []⟩).2.state.persistedGroupingRules
        = (memberDelete specEngine domain (.ok ⟨subject⟩) ⟨st, []⟩).2.state.groupingRules
    ∧ rolesOf (memberDelete specEngine domain (.ok ⟨subject⟩) ⟨st, []⟩).2.state.groupingRules
        subject domain = []
    ∧ (∀ r, [subject, r, domain]
        ∉ (memberDelete specEngine domain (.ok ⟨subject⟩) ⟨st, []⟩).2.state.groupingRules)
    ∧ (∀ rule : Rule, (∀ r, rule ≠ [subject, r, domain]) →
        (memberDelete specEngine domain (.ok ⟨subject⟩) ⟨st, []⟩).2.state.groupingRules.count rule
          = (specEngine.LoadPolicy st).2.groupingRules.count rule
        ∧ (rule ∈ (memberDelete specEngine domain (.ok ⟨subject⟩) ⟨st, []⟩).2.state.groupingRules
          ↔ rule ∈ st.persistedGroupingRules))
    ∧ impliedRoles
        (memberDelete specEngine domain (.ok ⟨subject⟩) ⟨st, []⟩).2.state.groupingRules
        subject domain = [] := by
  obtain ⟨h1, hs⟩ := delete_success_state st subject domain h
  rw [hs, h1]
  refine ⟨rfl, ?_, ?_, ?_, ?_⟩
  · exact rolesOf_eq_nil _ subject domain
      (removed_rows_gone st.loaded.groupingRules subject domain)
  · exact removed_rows_gone st.loaded.groupingRules subject domain
  · intro rule hrule
    refine ⟨other_rows_kept st.loaded.groupingRules subject domain rule hrule, ?_⟩
    show rule ∈ List.filter _ (loadRows st.persistedGroupingRules) ↔ _
    rw [List.mem_filter, mem_loadRows]
    constructor
    · exact fun hm => hm.1
    · intro hm
      refine ⟨hm, ?_⟩
      have : rule ∉ (rolesOf st.loaded.groupingRules subject domain).map
          (fun r => [subject, r, domain]) := by
        intro hold
        obtain ⟨r, hr⟩ := old_rows_shape _ subject domain rule hold
        exact hrule r hr
      simpa using this
  · exact impliedRoles_eq_nil _ subject domain
      (removed_rows_gone st.loaded.groupingRules subject domain)

theorem remove_all_clears_roles_witness :
    (memberDelete specEngine "teamX" (.ok ⟨"carol"⟩) ⟨hierarchyStore, []⟩).1
        = messageJSON 200 "role deleted"
    ∧ rolesOf (memberDelete specEngine "teamX" (.ok ⟨"carol"⟩)
        ⟨hierarchyStore, []⟩).2.state.groupingRules "carol" "teamX" = [] :=
  ⟨by decide, (remove_all_clears_roles hierarchyStore "carol" "teamX" (by decide)).2.1⟩

theorem insertRules_single (g : List Rule) (rule : Rule) (h : rule ∉ g) :
    insertRules g [rule] = g ++ [rule] := by
  simp [insertRules, h]

theorem replaced_eq_insert (g : List Rule) (subject role domain : String) :
    insertRules
        (g.filter (fun rule =>
          rule ∉ (rolesOf g subject domain).map (fun r => [subject, r, domain])))
        [[subject, role, domain]]
      = replaced g subject role domain :=
  insertRules_single _ _ (removed_rows_gone g subject domain role)

/-- The state `PUT /members/:domain` leaves on the engine of the
specification when it answers "role updated". -/
theorem put_success_state (st : RuleStore) (subject role domain : String)
    (h : (memberPut specEngine domain (.ok ⟨subject, role⟩) ⟨st, []⟩).1
        = messageJSON 200 "role updated") :
    (memberPut specEngine domain (.ok ⟨subject, role⟩) ⟨st, []⟩).2.state
      = (st.loaded.withGrouping
          (replaced st.loaded.groupingRules subject role domain)).saved := by
  by_cases hr : role = "owner" ∨ role = "moderator"
  swap
  · have hb : role ≠ "owner" ∧ role ≠ "moderator" :=
      ⟨fun e => hr (Or.inl e), fun e => hr (Or.inr e)⟩
    simp [memberPut, hb, errorJSON, messageJSON] at h
  cases hrf : st.readFailure with
  | some e =>
    rw [memberPut_load_failed specEngine domain ⟨subject, role⟩ st st e hr
      (reload_failed st e hrf)] at h
    simp [errorJSON, messageJSON] at h
  | none =>
    have h1 := reload_ok st hrf
    by_cases h0 : rolesOf st.loaded.groupingRules subject domain = []
    · rw [memberPut_not_found specEngine domain ⟨subject, role⟩ st _ hr h1 h0] at h
      simp [errorJSON, messageJSON] at h
    · by_cases hc :
          (insertRules (st.loaded.groupingRules.filter (fun rule =>
              rule ∉ (rolesOf st.loaded.groupingRules subject domain).map
                (fun r => [subject, r, domain]))) [[subject, role, domain]]
            ⊆ st.loaded.groupingRules)
          ∧ (st.loaded.groupingRules
            ⊆ insertRules (st.loaded.groupingRules.filter (fun rule =>
              rule ∉ (rolesOf st.loaded.groupingRules subject domain).map
                (fun r => [subject, r, domain]))) [[subject, role, domain]])
      · have h2 : specEngine.UpdateGroupingPolicies
            ((rolesOf st.loaded.groupingRules subject domain).map
              (fun r => [subject, r, domain]))
            [[subject, role, domain]] st.loaded
            = ((false, none), st.loaded) := by
          exact if_pos hc
        rcases h3 : specEngine.SavePolicy st.loaded with ⟨e3, st3⟩
        rw [memberPut_saved specEngine domain ⟨subject, role⟩ st _ _ st3 false e3 hr h1 h0
          h2 h3] at h
        cases e3 <;> simp [errorJSON, messageJSON] at h
      · have h2 : specEngine.UpdateGroupingPolicies
            ((rolesOf st.loaded.groupingRules subject domain).map
              (fun r => [subject, r, domain]))
            [[subject, role, domain]] st.loaded
            = ((true, none),
                st.loaded.withGrouping
                  (replaced st.loaded.groupingRules subject role domain)) := by
          rw [← replaced_eq_insert]
          exact if_neg hc
        cases hwf : st.writeFailure with
        | some e =>
          have h3 := persist_failed
            (st.loaded.withGrouping
              (replaced st.loaded.groupingRules subject role domain)) e hwf
          rw [memberPut_saved specEngine domain ⟨subject, role⟩ st _ _ _ true _ hr h1 h0
            h2 h3] at h
          simp [errorJSON, messageJSON] at h
        | none =>
          have h3 := persist_ok
            (st.loaded.withGrouping
              (replaced st.loaded.groupingRules subject role domain)) hwf
          rw [memberPut_saved specEngine domain ⟨subject, role⟩ st _ _ _ true none hr h1 h0
            h2 h3]

theorem mem_replaced (g : List Rule) (subject role domain : String) :
    [subject, role, domain] ∈ replaced g subject role domain := by
  simp [replaced]

theorem replaced_only_role (g : List Rule) (subject role domain r : String)
    (h : [subject, r, domain] ∈ replaced g subject role domain) : r = role := by
  unfold replaced at h
  rw [List.mem_append] at h
  rcases h with h | h
  · exact absurd h (removed_rows_gone g subject domain r)
  · simpa using h

theorem rolesOf_replaced (g : List Rule) (subject role domain : String) :
    rolesOf (replaced g subject role domain) subject domain = [role] := by
  unfold rolesOf replaced
  rw [rolesHeldBy_append, rolesHeldBy_eq_nil _ domain subject
    (removed_rows_gone g subject domain)]
  simp [rolesHeldBy]

/-- What a successful `PUT /members/:domain` leaves on the engine of the
specification. -/
theorem replace_result (st : RuleStore) (subject role domain : String)
    (h : (memberPut specEngine domain (.ok ⟨subject, role⟩) ⟨st, []⟩).1
        = messageJSON 200 "role updated") :
    (memberPut specEngine domain (.ok ⟨subject, role⟩) ⟨st, []⟩).2.state.persistedGroupingRules
        = (memberPut specEngine domain (.ok ⟨subject, role⟩) ⟨st, []⟩).2.state.groupingRules
    ∧ [subject, role, domain]
        ∈ (memberPut specEngine domain (.ok ⟨subject, role⟩) ⟨st, []⟩).2.state.groupingRules
    ∧ (∀ r, [subject, r, domain]
        ∈ (memberPut specEngine domain (.ok ⟨subject, role⟩) ⟨st, []⟩).2.state.groupingRules →
        r = role)
    ∧ rolesOf
        (memberPut specEngine domain (.ok ⟨subject, role⟩) ⟨st, []⟩).2.state.groupingRules
        subject domain = [role] := by
  rw [put_success_state st subject role domain h]
  exact ⟨rfl, mem_replaced _ subject role domain,
    fun r hmem => replaced_only_role _ subject role domain r hmem,
    rolesOf_replaced _ subject role domain⟩

theorem mem_withRule (g : List Rule) (subject role domain : String) :
    [subject, role, domain] ∈ withRule g subject role domain := by
  unfold withRule
  split <;> simp_all

theorem withRule_idem (g : List Rule) (subject role domain : String) :
    withRule (withRule g subject role domain) subject role domain
      = withRule g subject role domain := by
  have hm := mem_withRule g subject role domain
  exact if_pos hm

theorem nodup_withRule (g : List Rule) (subject role domain : String) (h : g.Nodup) :
    (withRule g subject role domain).Nodup := by
  unfold withRule
  by_cases hm : [subject, role, domain] ∈ g
  · simpa [hm] using h
  · simp only [hm, if_false]
    rw [List.nodup_append]
    refine ⟨h, List.nodup_singleton _, ?_⟩
    intro a ha hax
    rw [List.mem_singleton] at hax
    exact hm (hax ▸ ha)

theorem count_eq_one_of_distinct (l : List Rule) (a : Rule) (hnd : l.Nodup) (hm : a ∈ l) :
    l.count a = 1 := by
  induction l with
  | nil => simp at hm
  | cons x xs ih =>
    rw [List.nodup_cons] at hnd
    rw [List.count_cons]
    by_cases hx : x = a
    · subst hx
      have : xs.count x = 0 := List.count_eq_zero.mpr hnd.1
      simp [this]
    · have hxs : a ∈ xs := by
        rcases List.mem_cons.mp hm with h | h
        · exact absurd h.symm hx
        · exact h
      simp [ih hnd.2 hxs, hx]

/-- What `POST /members/:domain` does on the engine of the specification
when the medium is healthy. -/
theorem post_on_healthy_medium (st : RuleStore) (subject role domain : String)
    (hr : role = "owner" ∨ role = "moderator")
    (hread : st.readFailure = none) (hwrite : st.writeFailure = none) :
    memberPost specEngine domain (.ok ⟨subject, role⟩) ⟨st, []⟩
      = ((if [subject, role, domain] ∈ st.loaded.groupingRules
            then errorJSON 400 "failed to add role" else messageJSON 200 "role added"),
          ⟨(st.loaded.withGrouping
              (withRule st.loaded.groupingRules subject role domain)).saved,
            [Call.LoadPolicy, Call.AddRoleForUserInDomain subject role domain,
              Call.SavePolicy]⟩) := by
  have h1 := reload_ok st hread
  by_cases hm : [subject, role, domain] ∈ st.loaded.groupingRules
  · have h2 : specEngine.AddRoleForUserInDomain subject role domain st.loaded
        = ((false, none), st.loaded) := by
      exact if_pos hm
    have h3 := persist_ok st.loaded hwrite
    rw [memberPost_saved specEngine domain ⟨subject, role⟩ st _ _ _ false none hr h1 h2 h3]
    simp [hm, withRule, RuleStore.withGrouping]
  · have h2 : specEngine.AddRoleForUserInDomain subject role domain st.loaded
        = ((true, none),
            st.loaded.withGrouping (st.loaded.groupingRules ++ [[subject, role, domain]])) := by
      exact if_neg hm
    have h3 := persist_ok
      (st.loaded.withGrouping (st.loaded.groupingRules ++ [[subject, role, domain]])) hwrite
    rw [memberPost_saved specEngine domain ⟨subject, role⟩ st _ _ _ true none hr h1 h2 h3]
    simp [hm, withRule]

/-- The store a `POST /members/:domain` leaves on a healthy medium is the one
a reload brings back. -/
theorem loaded_after_post (st : RuleStore) (g : List Rule) (hg : g.Nodup) :
    ((st.loaded.withGrouping g).saved).loaded = (st.loaded.withGrouping g).saved := by
  simp [RuleStore.loaded, RuleStore.saved, RuleStore.withGrouping, loadRows_of_nodup g hg]

/-- A `PUT /members/:domain` on a healthy medium for a subject that holds a
role other than the new one answers "role updated". -/
theorem put_updates (st : RuleStore) (subject role domain other : String)
    (hr : role = "owner" ∨ role = "moderator")
    (hread : st.readFailure = none) (hwrite : st.writeFailure = none)
    (hmem : [subject, other, domain] ∈ st.persistedGroupingRules) (hne : other ≠ role) :
    (memberPut specEngine domain (.ok ⟨subject, role⟩) ⟨st, []⟩).1
      = messageJSON 200 "role updated" := by
  have h1 := reload_ok st hread
  have hl : [subject, other, domain] ∈ st.loaded.groupingRules :=
    (mem_loadRows st.persistedGroupingRules _).mpr hmem
  have h0 : rolesOf st.loaded.groupingRules subject domain ≠ [] :=
    List.ne_nil_of_mem ((mem_rolesOf _ subject other domain).mpr hl)
  have hc : ¬ ((insertRules (st.loaded.groupingRules.filter (fun rule =>
              rule ∉ (rolesOf st.loaded.groupingRules subject domain).map
                (fun r => [subject, r, domain]))) [[subject, role, domain]]
            ⊆ st.loaded.groupingRules)
          ∧ (st.loaded.groupingRules
            ⊆ insertRules (st.loaded.groupingRules.filter (fun rule =>
              rule ∉ (rolesOf st.loaded.groupingRules subject domain).map
                (fun r => [subject, r, domain]))) [[subject, role, domain]])) := by
    rintro ⟨_, hsub⟩
    rw [replaced_eq_insert] at hsub
    exact hne (replaced_only_role _ subject role domain other (hsub hl))
  have h2 : specEngine.UpdateGroupingPolicies
      ((rolesOf st.loaded.groupingRules subject domain).map (fun r => [subject, r, domain]))
      [[subject, role, domain]] st.loaded
      = ((true, none),
          st.loaded.withGrouping (replaced st.loaded.groupingRules subject role domain)) := by
    rw [← replaced_eq_insert]
    exact if_neg hc
  have h3 := persist_ok
    (st.loaded.withGrouping (replaced st.loaded.groupingRules subject role domain)) hwrite
  rw [memberPut_saved specEngine domain ⟨subject, role⟩ st _ _ _ true none hr h1 h0 h2 h3]
  simp

theorem replaced_after_first_role (g : List Rule) (subject first role domain : String)
    (hun : ∀ r, [subject, r, domain] ∉ g) :
    replaced (g ++ [[subject, first, domain]]) subject role domain
      = g ++ [[subject, role, domain]] := by
  unfold replaced
  rw [List.filter_append]
  have hkeep : g.filter (fun rule =>
      rule ∉ (rolesOf (g ++ [[subject, first, domain]]) subject domain).map
        (fun r => [subject, r, domain])) = g := by
    rw [List.filter_eq_self]
    intro rule hrule
    have : rule ∉ (rolesOf (g ++ [[subject, first, domain]]) subject domain).map
        (fun r => [subject, r, domain]) := by
      intro hold
      obtain ⟨r, hr⟩ := old_rows_shape _ subject domain rule hold
      exact hun r (hr ▸ hrule)
    simpa using this
  have hdrop : [[subject, first, domain]].filter (fun rule =>
      rule ∉ (rolesOf (g ++ [[subject, first, domain]]) subject domain).map
        (fun r => [subject, r, domain])) = [] := by
    have hin := old_rows_cover_direct (g ++ [[subject, first, domain]]) subject first domain
      (by simp)
    simp [List.filter, hin]
  rw [hkeep, hdrop]
  simp

/-- Scenario D of §8 on the engine of the specification, from any store on a
healthy medium in which carol holds no role in teamX. -/
theorem scenario_D (st : RuleStore)
    (hread : st.readFailure = none) (hwrite : st.writeFailure = none)
    (hun : ∀ r, ["carol", r, "teamX"] ∉ st.persistedGroupingRules) :
    (postThenPut specEngine "teamX" ⟨"carol", "moderator"⟩ ⟨"carol", "owner"⟩ st).2.1
        = messageJSON 200 "role updated"
    ∧ (postThenPut specEngine "teamX" ⟨"carol", "moderator"⟩ ⟨"carol", "owner"⟩
        st).2.2.state.groupingRules
          = (specEngine.LoadPolicy st).2.groupingRules ++ [["carol", "owner", "teamX"]] := by
  have hl : ∀ r, ["carol", r, "teamX"] ∉ st.loaded.groupingRules :=
    fun r hm => hun r ((mem_loadRows st.persistedGroupingRules _).mp hm)
  have hw : withRule st.loaded.groupingRules "carol" "moderator" "teamX"
      = st.loaded.groupingRules ++ [["carol", "moderator", "teamX"]] := by
    unfold withRule
    rw [if_neg (hl "moderator")]
  have hnd : (st.loaded.groupingRules ++ [["carol", "moderator", "teamX"]]).Nodup := by
    rw [← hw]
    exact nodup_withRule _ _ _ _ (nodup_loadRows st.persistedGroupingRules)
  unfold postThenPut
  rw [post_on_healthy_medium st "carol" "moderator" "teamX" (Or.inr rfl) hread hwrite, hw,
    reload_ok st hread]
  have hput := put_updates
    (st.loaded.withGrouping (st.loaded.groupingRules ++ [["carol", "moderator", "teamX"]])).saved
    "carol" "owner" "teamX" "moderator" (Or.inl rfl) hread hwrite
    (by show _ ∈ st.loaded.groupingRules ++ [["carol", "moderator", "teamX"]]; simp)
    (by decide)
  refine ⟨hput, ?_⟩
  rw [put_success_state _ "carol" "owner" "teamX" hput, loaded_after_post st _ hnd]
  exact replaced_after_first_role st.loaded.groupingRules "carol" "moderator" "owner" "teamX" hl

/-- C3: on the engine of the specification, when `PUT /members/:domain`
answers "role updated", the resulting store, in memory and persisted alike,
holds the tuple `(subject, R, domain)` and no tuple `(subject, r, domain)`
with another role, and `rolesOf(subject, domain)` is exactly `[R]`.  In
particular, when the replacement of carol's role by owner that follows the
assignment of moderator succeeds, `rolesOf("carol", "teamX") = ["owner"]`;
and it does succeed, leaving the reloaded rows followed by the one tuple of
carol, on a healthy medium where carol held no role in teamX before. -/
theorem replace_leaves_one_assignment (st : RuleStore) (subject role domain : String)
    (h : (memberPut specEngine domain (.ok ⟨subject, role⟩) ⟨st, []⟩).1
        = messageJSON 200 "role updated") :
    ((memberPut specEngine domain (.ok ⟨subject, role⟩) ⟨st, []⟩).2.state.persistedGroupingRules
        = (memberPut specEngine domain (.ok ⟨subject, role⟩) ⟨st, []⟩).2.state.groupingRules
    ∧ [subject, role, domain]
        ∈ (memberPut specEngine domain (.ok ⟨subject, role⟩) ⟨st, []⟩).2.state.groupingRules
    ∧ (∀ r, [subject, r, domain]
        ∈ (memberPut specEngine domain (.ok ⟨subject, role⟩) ⟨st, []⟩).2.state.groupingRules →
        r = role)
    ∧ rolesOf
        (memberPut specEngine domain (.ok ⟨subject, role⟩) ⟨st, []⟩).2.state.groupingRules
        subject domain = [role])
    ∧ (∀ st0 : RuleStore,
        (postThenPut specEngine "teamX" ⟨"carol", "moderator"⟩ ⟨"carol", "owner"⟩ st0).2.1
            = messageJSON 200 "role updated" →
        rolesOf (postThenPut specEngine "teamX" ⟨"carol", "moderator"⟩ ⟨"carol", "owner"⟩
            st0).2.2.state.groupingRules "carol" "teamX" = ["owner"])
    ∧ (∀ st0 : RuleStore, st0.readFailure = none → st0.writeFailure = none →
        (∀ r, ["carol", r, "teamX"] ∉ st0.persistedGroupingRules) →
        (postThenPut specEngine "teamX" ⟨"carol", "moderator"⟩ ⟨"carol", "owner"⟩ st0).2.1
            = messageJSON 200 "role updated"
        ∧ (postThenPut specEngine "teamX" ⟨"carol", "moderator"⟩ ⟨"carol", "owner"⟩
            st0).2.2.state.groupingRules
              = (specEngine.LoadPolicy st0).2.groupingRules ++ [["carol", "owner", "teamX"]]) :=
  ⟨replace_result st subject role domain h,
    fun _ h0 => (replace_result _ "carol" "owner" "teamX" h0).2.2.2,
    fun st0 hread hwrite hun => scenario_D st0 hread hwrite hun⟩

theorem replace_leaves_one_assignment_witness :
    ((memberPut specEngine "teamX" (.ok ⟨"carol", "owner"⟩) ⟨hierarchyStore, []⟩).1
        = messageJSON 200 "role updated"
      ∧ (∀ r, ["carol", r, "teamX"]
          ∈ (memberPut specEngine "teamX" (.ok ⟨"carol", "owner"⟩)
              ⟨hierarchyStore, []⟩).2.state.groupingRules → r = "owner")
      ∧ rolesOf (memberPut specEngine "teamX" (.ok ⟨"carol", "owner"⟩)
          ⟨hierarchyStore, []⟩).2.state.groupingRules "carol" "teamX" = ["owner"])
    ∧ ((postThenPut specEngine "teamX" ⟨"carol", "moderator"⟩ ⟨"carol", "owner"⟩
          (RuleStore.ofRules [] [])).2.1 = messageJSON 200 "role updated"
      ∧ rolesOf (postThenPut specEngine "teamX" ⟨"carol", "moderator"⟩ ⟨"carol", "owner"⟩
          (RuleStore.ofRules [] [])).2.2.state.groupingRules "carol" "teamX" = ["owner"])
    ∧ ((RuleStore.ofRules [] []).readFailure = none
      ∧ (RuleStore.ofRules [] []).writeFailure = none
      ∧ (∀ r, ["carol", r, "teamX"] ∉ (RuleStore.ofRules [] []).persistedGroupingRules)
      ∧ (postThenPut specEngine "teamX" ⟨"carol", "moderator"⟩ ⟨"carol", "owner"⟩
          (RuleStore.ofRules [] [])).2.2.state.groupingRules = [["carol", "owner", "teamX"]]) :=
  ⟨⟨by decide,
      (replace_leaves_one_assignment hierarchyStore "carol" "owner" "teamX"
        (by decide)).1.2.2.1,
      (replace_leaves_one_assignment hierarchyStore "carol" "owner" "teamX"
        (by decide)).1.2.2.2⟩,
    ⟨by decide,
      (replace_leaves_one_assignment hierarchyStore "carol" "owner" "teamX" (by decide)).2.1
        (RuleStore.ofRules [] []) (by decide)⟩,
    ⟨rfl, rfl, by simp [RuleStore.ofRules],
      ((replace_leaves_one_assignment hierarchyStore "carol" "owner" "teamX" (by decide)).2.2
        (RuleStore.ofRules [] []) rfl rfl (by simp [RuleStore.ofRules])).2⟩⟩

/-- C4, as the handler has it: two `POST /members/:domain` requests in a row
with the same whitelisted role, on a healthy medium, leave the tuple in the
store exactly once, in memory and persisted alike; on the second request the
add returns false with no error and the store is not changed, and the handler
answers it with status 400 and the error "failed to add role". -/
theorem assign_twice_leaves_one_tuple (st : RuleStore) (subject role domain : String)
    (hr : role = "owner" ∨ role = "moderator")
    (hread : st.readFailure = none) (hwrite : st.writeFailure = none) :
    (postTwice specEngine domain ⟨subject, role⟩ st).2.2.state.groupingRules.count
        [subject, role, domain] = 1
    ∧ (postTwice specEngine domain ⟨subject, role⟩ st).2.2.state.persistedGroupingRules.count
        [subject, role, domain] = 1
    ∧ (specEngine.AddRoleForUserInDomain subject role domain
        (specEngine.LoadPolicy
          (postTwice specEngine domain ⟨subject, role⟩ st).1.2.state).2).1 = (false, none)
    ∧ (postTwice specEngine domain ⟨subject, role⟩ st).2.2.state
        = (postTwice specEngine domain ⟨subject, role⟩ st).1.2.state
    ∧ (postTwice specEngine domain ⟨subject, role⟩ st).2.2.calls
        = [Call.LoadPolicy, Call.AddRoleForUserInDomain subject role domain, Call.SavePolicy]
    ∧ (postTwice specEngine domain ⟨subject, role⟩ st).2.1
        = errorJSON 400 "failed to add role" := by
  have hnd : (withRule st.loaded.groupingRules subject role domain).Nodup :=
    nodup_withRule _ _ _ _ (nodup_loadRows st.persistedGroupingRules)
  have hm := mem_withRule st.loaded.groupingRules subject role domain
  have hl := loaded_after_post st _ hnd
  have hcount := count_eq_one_of_distinct _ _ hnd hm
  unfold postTwice
  rw [post_on_healthy_medium st subject role domain hr hread hwrite]
  dsimp only
  rw [post_on_healthy_medium
    (st.loaded.withGrouping (withRule st.loaded.groupingRules subject role domain)).saved
    subject role domain hr hread hwrite, hl,
    reload_ok (st.loaded.withGrouping
      (withRule st.loaded.groupingRules subject role domain)).saved hread, hl]
  have hm2 : [subject, role, domain]
      ∈ ((st.loaded.withGrouping
          (withRule st.loaded.groupingRules subject role domain)).saved).groupingRules := hm
  have hsame : ((st.loaded.withGrouping
        (withRule st.loaded.groupingRules subject role domain)).saved).withGrouping
        (withRule ((st.loaded.withGrouping
          (withRule st.loaded.groupingRules subject role domain)).saved).groupingRules
          subject role domain)
      = (st.loaded.withGrouping
          (withRule st.loaded.groupingRules subject role domain)).saved := by
    show RuleStore.withGrouping _ (withRule (withRule _ _ _ _) _ _ _) = _
    rw [withRule_idem]
    rfl
  rw [hsame]
  have hsaved : ((st.loaded.withGrouping
        (withRule st.loaded.groupingRules subject role domain)).saved).saved
      = (st.loaded.withGrouping
          (withRule st.loaded.groupingRules subject role domain)).saved := rfl
  rw [hsaved, if_pos hm2]
  refine ⟨hcount, hcount, ?_, rfl, rfl, rfl⟩
  show (RuleStore.add subject role domain _).1 = (false, none)
  unfold RuleStore.add
  rw [if_pos hm2]

theorem assign_twice_leaves_one_tuple_witness :
    (("owner" = "owner" ∨ "owner" = "moderator")
      ∧ repeatedStore.readFailure = none ∧ repeatedStore.writeFailure = none)
    ∧ (postTwice specEngine "teamX" ⟨"alice", "owner"⟩
        repeatedStore).2.2.state.persistedGroupingRules.count ["alice", "owner", "teamX"] = 1
    ∧ (postTwice specEngine "teamX" ⟨"bob", "owner"⟩ demoStore).1.1
        = messageJSON 200 "role added"
    ∧ (postTwice specEngine "teamX" ⟨"bob", "owner"⟩
        demoStore).2.2.state.groupingRules.count ["bob", "owner", "teamX"] = 1 :=
  ⟨⟨Or.inl rfl, rfl, rfl⟩,
    (assign_twice_leaves_one_tuple repeatedStore "alice" "owner" "teamX" (Or.inl rfl) rfl
      rfl).2.1,
    by decide,
    (assign_twice_leaves_one_tuple demoStore "bob" "owner" "teamX" (Or.inl rfl) rfl rfl).1⟩

/-- C4 as stated fails in how the second call is reported: on `demoStore` the
first request adds bob as owner and is answered "role added"; the second
finds the tuple, the add returning false with no error, and the handler
answers it with status 400 under the key "error", an error answer. -/
theorem second_assign_answered_as_error :
    (postTwice specEngine "teamX" ⟨"bob", "owner"⟩ demoStore).1.1
        = messageJSON 200 "role added"
    ∧ (specEngine.AddRoleForUserInDomain "bob" "owner" "teamX"
        (specEngine.LoadPolicy
          (postTwice specEngine "teamX" ⟨"bob", "owner"⟩ demoStore).1.2.state).2).1
        = (false, none)
    ∧ (postTwice specEngine "teamX" ⟨"bob", "owner"⟩ demoStore).2.1
        = ⟨400, "error", Payload.text "failed to add role"⟩
    ∧ (postTwice specEngine "teamX" ⟨"bob", "owner"⟩ demoStore).2.1.status = 400
    ∧ (postTwice specEngine "teamX" ⟨"bob", "owner"⟩ demoStore).2.1.key = "error" := by
  refine ⟨by decide, by decide, by decide, by decide, by decide⟩

end LearnCasbin
